import Mathlib

/-!
SatisfactoryModManager: binding layer over ficsit-cli

A shallow embedding of `src/bindings/ficsit_cli.go` and `src/bindings/settings.go`.

* Go pointers into the registry (`*InstallationInfo`) are indices into `f.installations`:
  the slice is only assigned in `initInstallations`, so an index names one heap object.
* The external library `ficsit-cli` is a record of functions (`Cli`): every call the source
  makes on it is a field, and what the library keeps outside this program (files on disk,
  its own bookkeeping) is an abstract world `W` that those calls may read and change.
* Everything the program does that an observer can see (wails events, log lines, calls into
  the library that the specification counts) is appended to `trace`, oldest first.
* A Go run-time panic (nil dereference, index out of range) or a `log.Fatal` ends the
  operation with `Outcome.panic`; what was written before stays written.
* The listener goroutine of `validateInstall` receives from an unbuffered channel and is
  never waited for. A send ends only when the listener is back at its receive, so when
  `Install` returns every update but the last has been handled. When the last one is handled
  is the scheduler's choice, given by `lag`: 0 is before `Install` returns, `k > 0` is at the
  `k`-th of the marked points between the later events of the calling goroutine
  (`listenerTurn k`), and a `lag` that names no point is after the operation has returned.
  One `SetProgress` call is one step.
* `sort.Slice` and the functions of `ficsit-cli` are not part of this repository: they are
  parameters, `sort.Slice` with the contract of its documentation; `goSortSlice` is the
  algorithm Go runs for it since Go 1.19.
* `initInstallations` runs from `MakeFicsitCLI`, before `startup` has assigned `f.ctx`; the
  wails logging calls it makes get the nil context, on which the wails runtime ends the
  process. All other methods run after `startup`.
-/

namespace SMM

/-- An `error` value: `errors.New` / a library error, or `errors.Wrapf(cause, msg)`. -/
inductive Error where
  | base (msg : String)
  | wrap (cause : Error) (msg : String)
  deriving DecidableEq, Repr

/-- The function `errors.Wrapf` from `github.com/pkg/errors`: a nil error stays nil. -/
def Wrapf (err : Option Error) (msg : String) : Option Error :=
  match err with
  | none => none
  | some e => some (Error.wrap e msg)

/-- A Go `float64` as far as comparison sees it: NaN, the two infinities, or a finite value
(kept as the rational it denotes). -/
inductive Float64 where
  | nan
  | negInf
  | fin (q : ℚ)
  | posInf
  deriving DecidableEq

/-- Go's `x < y` on `float64`: false whenever an operand is NaN. -/
def Float64.lt : Float64 → Float64 → Bool
  | .nan, _ => false
  | _, .nan => false
  | .negInf, .negInf => false
  | .negInf, _ => true
  | .fin _, .negInf => false
  | .fin a, .fin b => decide (a < b)
  | .fin _, .posInf => true
  | .posInf, _ => false

/-- Go's `x >= y` on `float64`: false whenever an operand is NaN. -/
def Float64.ge : Float64 → Float64 → Bool
  | .nan, _ => false
  | _, .nan => false
  | .negInf, .negInf => true
  | .negInf, _ => false
  | .fin _, .negInf => true
  | .fin a, .fin b => decide (b ≤ a)
  | .fin _, .posInf => false
  | .posInf, _ => true

/-- The struct `Progress` of `ficsit_cli.go`. -/
structure Progress where
  Item : String
  Message : String
  Progress : Float64
  deriving DecidableEq

/-- The library's `cli.ProfileMod`. -/
structure ProfileMod where
  Version : String
  Enabled : Bool
  deriving DecidableEq, Repr

/-- The library's `cli.Profile`: the source reads its field `Mods`. -/
structure Profile where
  Name : String
  Mods : List (String × ProfileMod)
  deriving DecidableEq, Repr

/-- The library's `cli.Installation`: the source reads and writes its field `Profile`. -/
structure Installation where
  Path : String
  Profile : String
  deriving DecidableEq, Repr

/-- The type `installFinderTypes.Installation`, with the fields the source reads. -/
structure FinderInstallation where
  Path : String
  Launcher : String
  Branch : String
  deriving DecidableEq, Repr

/-- The struct `InstallationInfo` of `ficsit_cli.go`. -/
structure InstallationInfo where
  Installation : Installation
  Info : FinderInstallation
  deriving DecidableEq, Repr

/-- The library's `cli.InstallUpdate`, with the fields the listener reads. -/
structure InstallUpdate where
  ModName : String
  DownloadProgress : Float64
  deriving DecidableEq

/-- The lock file of an installation as the library returns it: mod reference and version. -/
abbrev LockFile := List (String × String)

/-- The in-memory profile map `Profiles.Profiles` (`map[string]*Profile`). -/
abbrev ProfileMap := String → Option Profile

/-- What an observer sees an operation do, one entry per event. -/
inductive Effect where
  | emitProgress (p : Option Progress)
  | emitLockfileMods (l : LockFile)
  | emitManifestMods (m : List (String × ProfileMod))
  | logError (err : Error)
  | callInstall (installation : Installation)
  | callSave
  deriving DecidableEq

/-- The external library `ficsit-cli`, one field per call the source makes. A method with a
pointer receiver returns the new value of what it points to. -/
structure Cli (W : Type) where
  DefaultProfileName : String
  ClearInstallations : W → W
  AddInstallation : W → String → String → W × Except Error Installation
  SetProfile : W → ProfileMap → Installation → String → W × Installation
  Install : W → ProfileMap → Installation → W × List InstallUpdate × Option Error
  LockFile : W → ProfileMap → Installation → Except Error LockFile
  AddMod : Profile → String → String → Profile × Option Error
  RemoveMod : Profile → String → Profile
  SetModEnabled : Profile → String → Bool → Profile
  Save : W → ProfileMap → W
  DeleteProfile : ProfileMap → String → ProfileMap × Option Error

/-- The struct `FicsitCLI`: `world` and `Profiles` are what `f.ficsitCli` holds, `trace` is
what has been sent through `f.ctx` and into the library so far. `lag` is the scheduler's
choice of when the listener goroutine handles the last update of a sync, and `late` is that
update while it has been received but not yet handled. -/
structure FicsitCLI (W : Type) where
  world : W
  Profiles : ProfileMap
  installations : List InstallationInfo
  selectedInstallation : Option Nat
  progress : Option Progress
  trace : List Effect
  lag : Nat := 0
  late : Option (String × InstallUpdate) := none

/-- How a call ends: it returns a value or it panics. -/
inductive Outcome (α : Type) where
  | ok (a : α)
  | panic (msg : String)
  deriving DecidableEq

/-- A method on a receiver of type `σ`: the outcome and the receiver afterwards. -/
def Op (σ α : Type) : Type := σ → Outcome α × σ

instance (σ : Type) : Monad (Op σ) where
  pure a := fun s => (Outcome.ok a, s)
  bind m k := fun s =>
    match m s with
    | (Outcome.ok a, s') => k a s'
    | (Outcome.panic e, s') => (Outcome.panic e, s')

/-- A run-time panic. -/
def Op.panic {σ α : Type} (msg : String) : Op σ α := fun s => (Outcome.panic msg, s)

/-- Read the receiver. -/
def Op.get {σ : Type} : Op σ σ := fun s => (Outcome.ok s, s)

/-- Overwrite part of the receiver. -/
def Op.modify {σ : Type} (g : σ → σ) : Op σ Unit := fun s => (Outcome.ok (), g s)

/-- Dereference a pointer: nil panics. -/
def Op.deref {σ α : Type} (p : Option α) : Op σ α :=
  match p with
  | some a => pure a
  | none => Op.panic "invalid memory address or nil pointer dereference"

variable {W : Type}

/-- Append one observable event. -/
def emit (e : Effect) : Op (FicsitCLI W) Unit :=
  Op.modify (fun f => { f with trace := f.trace ++ [e] })

/-- The method `GetInstallation`: the first handle whose `Info.Path` is `path`, else nil. -/
def GetInstallation (f : FicsitCLI W) (path : String) : Option Nat :=
  let i := f.installations.findIdx (fun install => install.Info.Path == path)
  if i < f.installations.length then some i else none

/-- The method `GetProfile`: the library's map lookup, nil when absent. -/
def GetProfile (f : FicsitCLI W) (profile : String) : Option Profile :=
  f.Profiles profile

/-- The method `SetProgress`. -/
def SetProgress (progress : Option Progress) : Op (FicsitCLI W) Unit := do
  Op.modify (fun f => { f with progress := progress })
  let f ← Op.get
  emit (Effect.emitProgress f.progress)

/-- The expression `f.selectedInstallation.Info.Path`. -/
def selectedPath : Op (FicsitCLI W) String := do
  let f ← Op.get
  let i ← Op.deref f.selectedInstallation
  let sel ← Op.deref f.installations[i]?
  pure sel.Info.Path

/-- The handle a registry pointer points to. -/
def handle (installation : Option Nat) : Op (FicsitCLI W) InstallationInfo := do
  let f ← Op.get
  let i ← Op.deref installation
  Op.deref f.installations[i]?

/-- The method `emitModsChange`, with `between` standing between its two events for what
another goroutine does there. -/
def emitModsChangeWith (cli : Cli W) (between : Op (FicsitCLI W) Unit) :
    Op (FicsitCLI W) Unit := do
  let path ← selectedPath
  let f ← Op.get
  let installation := GetInstallation f path
  let h ← handle installation
  let profileName := h.Installation.Profile
  let profile := GetProfile f profileName
  match cli.LockFile f.world f.Profiles h.Installation with
  | Except.error err => emit (Effect.logError err)
  | Except.ok lockfile => do
    emit (Effect.emitLockfileMods lockfile)
    between
    let p ← Op.deref profile
    emit (Effect.emitManifestMods p.Mods)

/-- The method `emitModsChange` while no other goroutine is running. -/
def emitModsChange (cli : Cli W) : Op (FicsitCLI W) Unit :=
  emitModsChangeWith cli (pure ())

/-- The profile map with the profile stored under `name` replaced by `p`. -/
def withProfile (profiles : ProfileMap) (name : String) (p : Profile) : ProfileMap :=
  fun k => if k = name then some p else profiles k

/-- Write through a `*Profile` obtained from `GetProfile(name)`: the map entry `name` now
holds the new value. -/
def storeProfile (name : String) (p : Profile) : Op (FicsitCLI W) Unit :=
  Op.modify (fun f => { f with Profiles := withProfile f.Profiles name p })

/-- The body of the listener goroutine of `validateInstall` for one received update. -/
def listenerStep (progressItem : String) (data : InstallUpdate) : Op (FicsitCLI W) Unit :=
  if data.DownloadProgress.lt (Float64.fin 1) then
    SetProgress (some
      { Item := progressItem
        Message := "Downloading " ++ data.ModName
        Progress := data.DownloadProgress })
  else
    SetProgress (some
      { Item := progressItem
        Message := "Extracting " ++ data.ModName
        Progress := data.DownloadProgress })

/-- The listener goroutine of `validateInstall`: `for data := range installChannel`. The
channel is unbuffered and has this one receiver, so the updates arrive in the order sent. -/
def listener (progressItem : String) : List InstallUpdate → Op (FicsitCLI W) Unit
  | [] => pure ()
  | data :: rest => do
    listenerStep progressItem data
    listener progressItem rest

/-- The method `validateInstall`. The library's `Install` sends its updates on the channel
and returns its error. The listener goroutine has handled every update but the last when
`Install` returns; the last one it has handled too when `lag` is 0, and otherwise it is left
in `late`, to be handled at a later `listenerTurn` or after the operation. -/
def validateInstall (cli : Cli W) (installation : Option Nat) (progressItem : String) :
    Op (FicsitCLI W) (Option Error) := do
  let h ← handle installation
  let f ← Op.get
  emit (Effect.callInstall h.Installation)
  let r := cli.Install f.world f.Profiles h.Installation
  Op.modify (fun f => { f with world := r.1 })
  if f.lag = 0 then do
    listener progressItem r.2.1
    Op.modify (fun f => { f with late := none })
  else do
    listener progressItem r.2.1.dropLast
    Op.modify (fun f =>
      { f with late := r.2.1.getLast?.map (fun data => (progressItem, data)) })
  pure r.2.2

/-- A point between two events of the calling goroutine after `Install` returned. The
listener goroutine handles the update left in `late` here when `lag` names this point. -/
def listenerTurn (n : Nat) : Op (FicsitCLI W) Unit := do
  let f ← Op.get
  match f.late with
  | none => pure ()
  | some (progressItem, data) =>
    if f.lag = n then do
      Op.modify (fun f => { f with late := none })
      listenerStep progressItem data
    else pure ()

/-- The call `f.ficsitCli.Profiles.Save()`; the source drops its result. -/
def Save (cli : Cli W) : Op (FicsitCLI W) Unit := do
  emit Effect.callSave
  Op.modify (fun f => { f with world := cli.Save f.world f.Profiles })

/-- The first three lines of every mod operation: the handle found again by the selected
path, its profile name, and the profile pointer. -/
def currentProfile : Op (FicsitCLI W) (Option Nat × String × Option Profile) := do
  let path ← selectedPath
  let f ← Op.get
  let installation := GetInstallation f path
  let h ← handle installation
  let profileName := h.Installation.Profile
  let profile := GetProfile f profileName
  pure (installation, profileName, profile)

/-- The call `profile.AddMod(mod, version)` through the pointer `profile`. -/
def AddMod (cli : Cli W) (profileName : String) (profile : Option Profile)
    (mod version : String) : Op (FicsitCLI W) (Option Error) := do
  let p ← Op.deref profile
  let r := cli.AddMod p mod version
  storeProfile profileName r.1
  pure r.2

/-- The call `profile.RemoveMod(mod)` through the pointer `profile`. -/
def RemoveModOfProfile (cli : Cli W) (profileName : String) (profile : Option Profile)
    (mod : String) : Op (FicsitCLI W) Unit := do
  let p ← Op.deref profile
  storeProfile profileName (cli.RemoveMod p mod)

/-- The call `profile.SetModEnabled(mod, enabled)` through the pointer `profile`. -/
def SetModEnabled (cli : Cli W) (profileName : String) (profile : Option Profile)
    (mod : String) (enabled : Bool) : Op (FicsitCLI W) Unit := do
  let p ← Op.deref profile
  storeProfile profileName (cli.SetModEnabled p mod enabled)

/-- The method `InstallMod`. -/
def InstallMod (cli : Cli W) (mod : String) : Op (FicsitCLI W) (Option Error) := do
  let (installation, profileName, profile) ← currentProfile
  let profileErr ← AddMod cli profileName profile mod ">=0.0.0"
  match profileErr with
  | some e => pure (Wrapf (some e) ("Failed to add mod: " ++ mod ++ "@latest"))
  | none => do
    SetProgress (some
      { Item := mod, Message := "Finding the best version to install", Progress := Float64.fin (-1) })
    let installErr ← validateInstall cli installation mod
    match installErr with
    | some e => pure (Wrapf (some e) ("Failed to install mod: " ++ mod ++ "@latest"))
    | none => do
      Save cli
      listenerTurn 1
      emitModsChangeWith cli (listenerTurn 2)
      listenerTurn 3
      SetProgress none
      listenerTurn 4
      pure none

/-- The method `InstallModVersion`. -/
def InstallModVersion (cli : Cli W) (mod version : String) :
    Op (FicsitCLI W) (Option Error) := do
  let (installation, profileName, profile) ← currentProfile
  let profileErr ← AddMod cli profileName profile mod version
  match profileErr with
  | some e => pure (Wrapf (some e) ("Failed to add mod: " ++ mod ++ "@" ++ version))
  | none => do
    SetProgress (some
      { Item := mod, Message := "Finding the best version to install", Progress := Float64.fin (-1) })
    let installErr ← validateInstall cli installation mod
    match installErr with
    | some e => pure (Wrapf (some e) ("Failed to install mod: " ++ mod ++ "@" ++ version))
    | none => do
      Save cli
      listenerTurn 1
      emitModsChangeWith cli (listenerTurn 2)
      listenerTurn 3
      SetProgress none
      listenerTurn 4
      pure none

/-- The method `RemoveMod`. -/
def RemoveMod (cli : Cli W) (mod : String) : Op (FicsitCLI W) (Option Error) := do
  let (installation, profileName, profile) ← currentProfile
  RemoveModOfProfile cli profileName profile mod
  SetProgress (some
    { Item := mod, Message := "Checking for mods that are no longer needed", Progress := Float64.fin (-1) })
  let installErr ← validateInstall cli installation mod
  match installErr with
  | some e => pure (Wrapf (some e) ("Failed to remove mod: " ++ mod))
  | none => do
    Save cli
    listenerTurn 1
    emitModsChangeWith cli (listenerTurn 2)
    listenerTurn 3
    SetProgress none
    listenerTurn 4
    pure none

/-- The method `EnableMod`. -/
def EnableMod (cli : Cli W) (mod : String) : Op (FicsitCLI W) (Option Error) := do
  let (installation, profileName, profile) ← currentProfile
  SetModEnabled cli profileName profile mod true
  SetProgress (some
    { Item := mod, Message := "Finding the best version to install", Progress := Float64.fin (-1) })
  let installErr ← validateInstall cli installation mod
  match installErr with
  | some e => pure (Wrapf (some e) ("Failed to enable mod: " ++ mod))
  | none => do
    Save cli
    listenerTurn 1
    emitModsChangeWith cli (listenerTurn 2)
    listenerTurn 3
    SetProgress none
    listenerTurn 4
    pure none

/-- The method `DisableMod`. -/
def DisableMod (cli : Cli W) (mod : String) : Op (FicsitCLI W) (Option Error) := do
  let (installation, profileName, profile) ← currentProfile
  SetModEnabled cli profileName profile mod false
  SetProgress (some
    { Item := mod, Message := "Checking for mods that are no longer needed", Progress := Float64.fin (-1) })
  let installErr ← validateInstall cli installation mod
  match installErr with
  | some e => pure (Wrapf (some e) ("Failed to disable mod: " ++ mod))
  | none => do
    Save cli
    listenerTurn 1
    emitModsChangeWith cli (listenerTurn 2)
    listenerTurn 3
    SetProgress none
    listenerTurn 4
    pure none

/-- Go's `a < b` on strings: the lexicographic order of their characters. -/
def strLess (a b : String) : Bool := decide (a.toList < b.toList)

/-- The function passed to `sort.Slice` in `initInstallations`, on the elements found at
the two indices. -/
def lessInstallation (a b : InstallationInfo) : Bool :=
  if a.Info.Launcher != b.Info.Launcher then strLess a.Info.Launcher b.Info.Launcher
  else strLess a.Info.Branch b.Info.Branch

/-- A wails logging call made from `initInstallations`. That method runs from
`MakeFicsitCLI`, before `startup` has assigned `f.ctx`, so the wails runtime is given the nil
context and ends the process (`log.Fatalf`). -/
def logWithoutContext {α : Type} : Op (FicsitCLI W) α :=
  Op.panic "log.Fatalf: cannot call the wails runtime: an invalid context was passed"

/-- The registration loop of `initInstallations`. For an installation the library refuses
the source logs and goes on to the next; the logging call ends the process. -/
def registerAll (cli : Cli W) : List FinderInstallation → Op (FicsitCLI W) Unit
  | [] => pure ()
  | install :: rest => do
    let f ← Op.get
    let r := cli.AddInstallation f.world install.Path "Default"
    Op.modify (fun f => { f with world := r.1 })
    match r.2 with
    | Except.error _ => logWithoutContext
    | Except.ok ficsitCliInstall =>
      Op.modify (fun f =>
        { f with installations :=
            f.installations ++ [{ Installation := ficsitCliInstall, Info := install }] })
    registerAll cli rest

/-- The method `initInstallations`. What `installFinders.FindInstallations()` returned is
given as `installs` and `findErrors`; `sortSlice` is Go's `sort.Slice`, applied to the
comparison on elements. The loop over `findErrors` logs each of them, which for the first one
ends the process. -/
def initInstallations (cli : Cli W)
    (sortSlice : (InstallationInfo → InstallationInfo → Bool) →
      List InstallationInfo → List InstallationInfo)
    (installs : List FinderInstallation) (findErrors : List Error) :
    Op (FicsitCLI W) Unit := do
  match findErrors with
  | [] => pure ()
  | _ :: _ => logWithoutContext
  Op.modify (fun f => { f with installations := [], world := cli.ClearInstallations f.world })
  registerAll cli installs
  Op.modify (fun f => { f with installations := sortSlice lessInstallation f.installations })
  let f ← Op.get
  match f.installations[0]? with
  | none => Op.panic "index out of range [0] with length 0"
  | some _ => Op.modify (fun f => { f with selectedInstallation := some 0 })

/-- The method `SelectInstall`. -/
def SelectInstall (cli : Cli W) (path : String) : Op (FicsitCLI W) Unit := do
  Op.modify (fun f => { f with selectedInstallation := GetInstallation f path })
  emitModsChange cli

/-- The method `SetProfile`: the library's `SetProfile` is called on the handle found by the
selected path and writes through the pointer. -/
def SetProfile (cli : Cli W) (profile : String) : Op (FicsitCLI W) Unit := do
  let path ← selectedPath
  let f ← Op.get
  let j ← Op.deref (GetInstallation f path)
  let h ← Op.deref f.installations[j]?
  let r := cli.SetProfile f.world f.Profiles h.Installation profile
  Op.modify (fun f =>
    { f with
      world := r.1
      installations := f.installations.set j { h with Installation := r.2 } })
  emitModsChange cli

/-- The method `DeleteProfile`. The loop over `f.installations` writes the default profile
name into every handle on the deleted profile. -/
def DeleteProfile (cli : Cli W) (name : String) : Op (FicsitCLI W) (Option Error) := do
  let f ← Op.get
  let r := cli.DeleteProfile f.Profiles name
  Op.modify (fun f => { f with Profiles := r.1 })
  match r.2 with
  | some err => pure (Wrapf (some err) ("Failed to delete profile: " ++ name))
  | none => do
    Save cli
    Op.modify (fun f =>
      { f with installations := f.installations.map (fun install =>
          if install.Installation.Profile == name then
            { install with
              Installation := { install.Installation with Profile := cli.DefaultProfileName } }
          else install) })
    pure none

/-! ## The settings store (`bindings/settings.go`) -/

/-- The struct `SettingsData` of `bindings/settings.go`. -/
structure SettingsData where
  FavouriteMods : List String
  AppHeight : Int
  ExpandedAppWidth : Int
  deriving DecidableEq

/-- What an observer sees the settings store do: `s.save()` writing the data to the settings
file, and the `favouriteMods` event. -/
inductive SettingsEffect where
  | save (data : SettingsData)
  | emitFavouriteMods (mods : List String)
  deriving DecidableEq

/-- The struct `Settings`, with the trace of what was sent through `s.ctx` and to the file. -/
structure Settings where
  Data : SettingsData
  trace : List SettingsEffect
  deriving DecidableEq

/-- The method `save`; callers in this file drop its result. -/
def Settings.save : Op Settings Unit :=
  Op.modify (fun s => { s with trace := s.trace ++ [SettingsEffect.save s.Data] })

/-- The method `emitFavouriteMods`. -/
def Settings.emitFavouriteMods : Op Settings Unit :=
  Op.modify (fun s =>
    { s with trace := s.trace ++ [SettingsEffect.emitFavouriteMods s.Data.FavouriteMods] })

/-- The search loop of `FavouriteMod` and `UnFavouriteMod` from position `i` on: the index of
the first entry equal to `modReference`, or `-1`. -/
def findFavourite (modReference : String) : List String → Nat → Int
  | [], _ => -1
  | mod :: rest, i =>
    if mod == modReference then (i : Int) else findFavourite modReference rest (i + 1)

/-- The method `FavouriteMod`. -/
def FavouriteMod (modReference : String) : Op Settings Bool := do
  let s ← Op.get
  let idx := findFavourite modReference s.Data.FavouriteMods 0
  if idx != -1 then
    pure false
  else do
    Op.modify (fun s =>
      { s with Data := { s.Data with FavouriteMods := s.Data.FavouriteMods ++ [modReference] } })
    Settings.save
    Settings.emitFavouriteMods
    pure true

/-- The method `UnFavouriteMod`: `append(mods[:idx], mods[idx+1:]...)` is the list without
the entry at `idx`. -/
def UnFavouriteMod (modReference : String) : Op Settings Bool := do
  let s ← Op.get
  let idx := findFavourite modReference s.Data.FavouriteMods 0
  if idx == -1 then
    pure false
  else do
    Op.modify (fun s =>
      { s with
        Data :=
          { s.Data with
            FavouriteMods :=
              s.Data.FavouriteMods.take idx.toNat ++
                s.Data.FavouriteMods.drop (idx.toNat + 1) } })
    Settings.save
    Settings.emitFavouriteMods
    pure true

/-! ## Reading a state and a trace -/

/-- The handle the mod operations work on: `f.GetInstallation(f.selectedInstallation.Info.Path)`,
as the pointer and the value it points to; `none` where the source would panic. -/
def currentInstallation (f : FicsitCLI W) : Option (Nat × InstallationInfo) := do
  let i ← f.selectedInstallation
  let sel ← f.installations[i]?
  let j ← GetInstallation f sel.Info.Path
  let h ← f.installations[j]?
  pure (j, h)


/-- The `progress` events of a trace, in order. -/
def broadcasts : List Effect → List (Option Progress)
  | [] => []
  | Effect.emitProgress p :: rest => p :: broadcasts rest
  | _ :: rest => broadcasts rest

/-- Whether an event is a `lockfileMods` or `manifestMods` notification. -/
def Effect.isModsNotification : Effect → Bool
  | Effect.emitLockfileMods _ => true
  | Effect.emitManifestMods _ => true
  | _ => false

/-- The broadcast the listener makes for one update. -/
def updateProgress (progressItem : String) (data : InstallUpdate) : Progress :=
  { Item := progressItem
    Message := (if data.DownloadProgress.lt (Float64.fin 1) then "Downloading " else "Extracting ")
      ++ data.ModName
    Progress := data.DownloadProgress }

/-- The events of one `emitModsChange` call on a handle, when it does not panic: the two
notifications, or the log line of a failed lock file read. -/
def modsChangeEvents (cli : Cli W) (w : W) (profiles : ProfileMap) (h : InstallationInfo) :
    List Effect :=
  match cli.LockFile w profiles h.Installation with
  | Except.error err => [Effect.logError err]
  | Except.ok lockfile =>
    match profiles h.Installation.Profile with
    | some p => [Effect.emitLockfileMods lockfile, Effect.emitManifestMods p.Mods]
    | none => [Effect.emitLockfileMods lockfile]

/-- What the five mod operations share after the profile was changed: announce, sync, and on
success save, notify and clear. -/
def syncTail (cli : Cli W) (installation : Option Nat) (mod startMsg failMsg : String) :
    Op (FicsitCLI W) (Option Error) := do
  SetProgress (some { Item := mod, Message := startMsg, Progress := Float64.fin (-1) })
  let installErr ← validateInstall cli installation mod
  match installErr with
  | some e => pure (Wrapf (some e) failMsg)
  | none => do
    Save cli
    listenerTurn 1
    emitModsChangeWith cli (listenerTurn 2)
    listenerTurn 3
    SetProgress none
    listenerTurn 4
    pure none

/-- The events of the sync step: the call and one broadcast per update. -/
def syncEvents (h : InstallationInfo) (mod : String) (updates : List InstallUpdate) :
    List Effect :=
  Effect.callInstall h.Installation ::
    updates.map (fun u => Effect.emitProgress (some (updateProgress mod u)))

/-- The updates the listener goroutine has handled when `Install` returns. -/
def handledInTime (lag : Nat) (updates : List InstallUpdate) : List InstallUpdate :=
  if lag = 0 then updates else updates.dropLast

/-- The update the listener goroutine has still to handle when `Install` returns. -/
def leftLate (lag : Nat) (progressItem : String) (updates : List InstallUpdate) :
    Option (String × InstallUpdate) :=
  if lag = 0 then none else updates.getLast?.map (fun data => (progressItem, data))

/-- The state in which `validateInstall` returns when it was called in `f` on handle `h`
after the announcement `startMsg`. -/
def afterInstall (cli : Cli W) (f : FicsitCLI W) (h : InstallationInfo)
    (mod startMsg : String) : FicsitCLI W :=
  { f with
    world := (cli.Install f.world f.Profiles h.Installation).1
    progress :=
      (((handledInTime f.lag (cli.Install f.world f.Profiles h.Installation).2.1).map
        (updateProgress mod)).getLast?).or
        (some { Item := mod, Message := startMsg, Progress := Float64.fin (-1) })
    trace := f.trace ++
      Effect.emitProgress
        (some { Item := mod, Message := startMsg, Progress := Float64.fin (-1) }) ::
      syncEvents h mod (handledInTime f.lag (cli.Install f.world f.Profiles h.Installation).2.1)
    late := leftLate f.lag mod (cli.Install f.world f.Profiles h.Installation).2.1 }

/-- What a mod operation does after a sync that succeeded. -/
def afterSync (cli : Cli W) : Op (FicsitCLI W) (Option Error) := do
  Save cli
  listenerTurn 1
  emitModsChangeWith cli (listenerTurn 2)
  listenerTurn 3
  SetProgress none
  listenerTurn 4
  pure none

/-- The events of the calling goroutine after a sync that succeeded, on handle `h` with
profile `p`, where `w` is the world after `Save`: `Save`, then the `emitModsChange` step
(`lockfileMods` and `manifestMods`, or the log line of a failed lock file read), then the
clearing broadcast. -/
def callerTail (cli : Cli W) (w : W) (profiles : ProfileMap) (h : InstallationInfo)
    (p : Profile) : List Effect :=
  Effect.callSave ::
    ((match cli.LockFile w profiles h.Installation with
      | Except.ok lockfile =>
        [Effect.emitLockfileMods lockfile, Effect.emitManifestMods p.Mods]
      | Except.error err => [Effect.logError err]) ++
    [Effect.emitProgress none])

/-- A mod operation that ended in `r` succeeded on handle `h`, where `p` is the profile after
the mutation and `updates` is what the library sent. It returned no error. Its events are the
announcement `startMsg`, the `Install` call with the broadcasts of the updates `handled`
during it, and then the events `pre ++ post` of the calling goroutine, which are `callerTail`:
`Save`, the `emitModsChange` step and the clearing broadcast, in this order and once each.
The listener goroutine has handled all updates in time, or all but the last; the broadcast
of that last one is `late`, which is empty or falls after `Save` among the events of the
calling goroutine. When it is not after the clearing broadcast, that one is the last event
and the progress slot is nil. -/
def SucceedsWith (cli : Cli W) (f : FicsitCLI W) (h : InstallationInfo) (p : Profile)
    (mod startMsg : String) (updates : List InstallUpdate)
    (r : Outcome (Option Error) × FicsitCLI W) : Prop :=
  r.1 = Outcome.ok none ∧
    ∃ (handled : List InstallUpdate) (pre post late : List Effect),
      r.2.trace = f.trace ++
        Effect.emitProgress
            (some { Item := mod, Message := startMsg, Progress := Float64.fin (-1) }) ::
          (syncEvents h mod handled ++ (pre ++ late ++ post)) ∧
      pre ++ post = callerTail cli
        (cli.Save
          (cli.Install f.world (withProfile f.Profiles h.Installation.Profile p) h.Installation).1
          (withProfile f.Profiles h.Installation.Profile p))
        (withProfile f.Profiles h.Installation.Profile p) h p ∧
      ((handled = updates ∧ late = []) ∨
        (handled = updates.dropLast ∧
          (late = [] ∨
            ∃ u, updates.getLast? = some u ∧ pre ≠ [] ∧
              late = [Effect.emitProgress (some (updateProgress mod u))]))) ∧
      ((late = [] ∨ post ≠ []) →
        r.2.progress = none ∧ r.2.trace.getLast? = some (Effect.emitProgress none))

/-- The first two events a mod operation adds to the trace of `f` are the broadcast of the
announcement `startMsg` for `mod` and then the library's `Install` call on handle `h`. -/
def AnnouncesFirst (f : FicsitCLI W) (h : InstallationInfo) (mod startMsg : String)
    (r : Outcome (Option Error) × FicsitCLI W) : Prop :=
  ∃ rest : List Effect,
    r.2.trace = f.trace ++
      Effect.emitProgress
          (some { Item := mod, Message := startMsg, Progress := Float64.fin (-1) }) ::
        Effect.callInstall h.Installation :: rest

/-- What Go asks of a `less` function: irreflexive, transitive, and being unordered is
transitive. -/
def StrictWeak {α : Type} (less : α → α → Bool) : Prop :=
  (∀ a, less a a = false) ∧
    (∀ a b c, less a b = true → less b c = true → less a c = true) ∧
    (∀ a b c, less a b = false → less b c = false → less a c = false)

/-- What Go documents of `sort.Slice`: for a proper `less` the slice is rearranged so that no
element is less than the one before it. Nothing is said about elements that compare equal
(`The sort is not guaranteed to be stable`). -/
def SortSliceContract
    (sortSlice : (InstallationInfo → InstallationInfo → Bool) →
      List InstallationInfo → List InstallationInfo) : Prop :=
  ∀ less, StrictWeak less → ∀ l,
    (sortSlice less l).Perm l ∧ (sortSlice less l).Chain' (fun a b => less b a = false)

/-- The key `(Launcher, Branch)` of `a` is at most that of `b` in the lexicographic order of
strings. -/
def KeyLe (a b : InstallationInfo) : Prop :=
  a.Info.Launcher < b.Info.Launcher ∨
    (a.Info.Launcher = b.Info.Launcher ∧
      (a.Info.Branch < b.Info.Branch ∨ a.Info.Branch = b.Info.Branch))

/-- Both handles have the same `(Launcher, Branch)`. -/
def sameKey (a b : InstallationInfo) : Bool :=
  a.Info.Launcher == b.Info.Launcher && a.Info.Branch == b.Info.Branch

/-- Handles with equal `(Launcher, Branch)` stand in `output` in the order they have in
`input`. -/
def KeepsOrderOfEqualKeys (input output : List InstallationInfo) : Prop :=
  ∀ a, output.filter (sameKey a) = input.filter (sameKey a)

/-- The state in which the registration loop of `initInstallations` starts. -/
def beforeRegistration (cli : Cli W) (f : FicsitCLI W) : FicsitCLI W :=
  { f with installations := [], world := cli.ClearInstallations f.world }

/-- The handles `initInstallations` registers, in discovery order, before sorting. -/
def registered (cli : Cli W) (installs : List FinderInstallation) (f : FicsitCLI W) :
    List InstallationInfo :=
  (registerAll cli installs (beforeRegistration cli f)).2.installations

/-- A `sort.Slice` that meets the contract: insertion sort. -/
def insertionSortSlice (less : InstallationInfo → InstallationInfo → Bool)
    (l : List InstallationInfo) : List InstallationInfo :=
  l.insertionSort (fun a b => less b a = false)

/-! ## Go's `sort.Slice` (package `sort`, Go 1.19 and later) -/

/-- The call `data.Less(i, j)` on the slice `data`. -/
def lessAt {α : Type} (less : α → α → Bool) (data : List α) (i j : Nat) : Bool :=
  match data[i]?, data[j]? with
  | some x, some y => less x y
  | _, _ => false

/-- The call `data.Swap(i, j)` on the slice `data`. -/
def swapAt {α : Type} (data : List α) (i j : Nat) : List α :=
  match data[i]?, data[j]? with
  | some x, some y => (data.set i y).set j x
  | _, _ => data

/-- Go's `bits.Len`, with the halvings counted down from `fuel`. -/
def bitsLenFrom : Nat → Nat → Nat
  | 0, _ => 0
  | fuel + 1, n => if n = 0 then 0 else 1 + bitsLenFrom fuel (n / 2)

/-- Go's `bits.Len`: the number of bits needed to write `n`. -/
def bitsLen (n : Nat) : Nat := bitsLenFrom (n + 1) n

/-- The inner loop of `insertionSort_func`:
`for j := i; j > a && data.Less(j, j-1); j-- { data.Swap(j, j-1) }`. -/
def insertionSortInner {α : Type} (less : α → α → Bool) (a : Nat) : Nat → List α → List α
  | 0, data => data
  | j + 1, data =>
    if j + 1 > a && lessAt less data (j + 1) j then
      insertionSortInner less a j (swapAt data (j + 1) j)
    else data

/-- The outer loop of `insertionSort_func` from `i` on: `for i := a + 1; i < b; i++`. -/
def insertionSortOuter {α : Type} (less : α → α → Bool) (a b : Nat) :
    Nat → Nat → List α → List α
  | 0, _, data => data
  | fuel + 1, i, data =>
    if i < b then insertionSortOuter less a b fuel (i + 1) (insertionSortInner less a i data)
    else data

/-- Go's `insertionSort_func(data, a, b)`. -/
def insertionSort_func {α : Type} (less : α → α → Bool) (data : List α) (a b : Nat) : List α :=
  insertionSortOuter less a b (b - a) (a + 1) data

/-- The loop of `siftDown_func` from `root` on. -/
def siftDownFrom {α : Type} (less : α → α → Bool) (hi first : Nat) :
    Nat → Nat → List α → List α
  | 0, _, data => data
  | fuel + 1, root, data =>
    if 2 * root + 1 ≥ hi then data
    else
      let child :=
        if 2 * root + 2 < hi && lessAt less data (first + (2 * root + 1)) (first + (2 * root + 2))
        then 2 * root + 2 else 2 * root + 1
      if !lessAt less data (first + root) (first + child) then data
      else siftDownFrom less hi first fuel child (swapAt data (first + root) (first + child))

/-- Go's `siftDown_func(data, lo, hi, first)`. -/
def siftDown_func {α : Type} (less : α → α → Bool) (data : List α) (lo hi first : Nat) :
    List α :=
  siftDownFrom less hi first hi lo data

/-- Go's `heapSort_func(data, a, b)`. -/
def heapSort_func {α : Type} (less : α → α → Bool) (data : List α) (a b : Nat) : List α :=
  let built := (List.range ((b - a - 1) / 2 + 1)).reverse.foldl
    (fun d i => siftDown_func less d i (b - a) a) data
  (List.range (b - a)).reverse.foldl
    (fun d i => siftDown_func less (swapAt d a (a + i)) 0 i a) built

/-- The method `Next` of Go's `xorshift`, on a `uint64`. -/
def xorshiftNext (r : Nat) : Nat :=
  let r1 := r ^^^ ((r <<< 13) % 2 ^ 64)
  let r2 := r1 ^^^ (r1 >>> 17)
  r2 ^^^ ((r2 <<< 5) % 2 ^ 64)

/-- One round of the loop of `breakPatterns_func`: the next random number and the swap. -/
def breakPatternsRound {α : Type} (a length idx : Nat) (st : Nat × List α) (i : Nat) :
    Nat × List α :=
  let random := xorshiftNext st.1
  let other := random &&& (2 ^ bitsLen length - 1)
  let other' := if other ≥ length then other - length else other
  (random, swapAt st.2 (idx - 1 + i) (a + other'))

/-- Go's `breakPatterns_func(data, a, b)`. -/
def breakPatterns_func {α : Type} (data : List α) (a b : Nat) : List α :=
  if b - a ≥ 8 then
    ([0, 1, 2].foldl (breakPatternsRound a (b - a) (a + (b - a) / 4 * 2 - 1)) (b - a, data)).2
  else data

/-- Go's `sortedHint`. -/
inductive SortedHint where
  | unknownHint
  | increasingHint
  | decreasingHint
  deriving DecidableEq

/-- Go's `order2_func(data, a, b, swaps)`, with the counter returned. -/
def order2_func {α : Type} (less : α → α → Bool) (data : List α) (a b swaps : Nat) :
    Nat × Nat × Nat :=
  if lessAt less data b a then (b, a, swaps + 1) else (a, b, swaps)

/-- Go's `median_func(data, a, b, c, swaps)`, with the counter returned. -/
def median_func {α : Type} (less : α → α → Bool) (data : List α) (a b c swaps : Nat) :
    Nat × Nat :=
  let o1 := order2_func less data a b swaps
  let o2 := order2_func less data o1.2.1 c o1.2.2
  let o3 := order2_func less data o1.1 o2.1 o2.2.2
  (o3.2.1, o3.2.2)

/-- Go's `medianAdjacent_func(data, a, swaps)`, with the counter returned. -/
def medianAdjacent_func {α : Type} (less : α → α → Bool) (data : List α) (a swaps : Nat) :
    Nat × Nat :=
  median_func less data (a - 1) a (a + 1) swaps

/-- Go's `choosePivot_func(data, a, b)`. -/
def choosePivot_func {α : Type} (less : α → α → Bool) (data : List α) (a b : Nat) :
    Nat × SortedHint :=
  let l := b - a
  let i := a + l / 4 * 1
  let j := a + l / 4 * 2
  let k := a + l / 4 * 3
  if l ≥ 8 then
    let mi := if l ≥ 50 then medianAdjacent_func less data i 0 else (i, 0)
    let mj := if l ≥ 50 then medianAdjacent_func less data j mi.2 else (j, mi.2)
    let mk := if l ≥ 50 then medianAdjacent_func less data k mj.2 else (k, mj.2)
    let m := median_func less data mi.1 mj.1 mk.1 mk.2
    (m.1,
      if m.2 = 0 then SortedHint.increasingHint
      else if m.2 = 12 then SortedHint.decreasingHint
      else SortedHint.unknownHint)
  else (j, SortedHint.increasingHint)

/-- The loop of `reverseRange_func`: `for i < j { data.Swap(i, j); i++; j-- }`. -/
def reverseRangeFrom {α : Type} : Nat → Nat → Nat → List α → List α
  | 0, _, _, data => data
  | fuel + 1, i, j, data =>
    if i < j then reverseRangeFrom fuel (i + 1) (j - 1) (swapAt data i j) else data

/-- Go's `reverseRange_func(data, a, b)`. -/
def reverseRange_func {α : Type} (data : List α) (a b : Nat) : List α :=
  reverseRangeFrom (b - a) a (b - 1) data

/-- The loop `for i < b && !data.Less(i, i-1) { i++ }` of `partialInsertionSort_func`. -/
def skipOrdered {α : Type} (less : α → α → Bool) (data : List α) (b : Nat) : Nat → Nat → Nat
  | 0, i => i
  | fuel + 1, i =>
    if i < b && !lessAt less data i (i - 1) then skipOrdered less data b fuel (i + 1) else i

/-- The loop `for j := i - 1; j >= 1; j--` of `partialInsertionSort_func`, from `j` on. -/
def shiftSmaller {α : Type} (less : α → α → Bool) : Nat → List α → List α
  | 0, data => data
  | j + 1, data =>
    if !lessAt less data (j + 1) j then data
    else shiftSmaller less j (swapAt data (j + 1) j)

/-- The loop `for j := i + 1; j < b; j++` of `partialInsertionSort_func`, from `j` on. -/
def shiftGreater {α : Type} (less : α → α → Bool) (b : Nat) : Nat → Nat → List α → List α
  | 0, _, data => data
  | fuel + 1, j, data =>
    if j < b then
      if !lessAt less data j (j - 1) then data
      else shiftGreater less b fuel (j + 1) (swapAt data j (j - 1))
    else data

/-- The outer loop of `partialInsertionSort_func`, with `steps` rounds left. -/
def partialInsertionSortFrom {α : Type} (less : α → α → Bool) (a b : Nat) :
    Nat → Nat → List α → List α × Bool
  | 0, _, data => (data, false)
  | steps + 1, i, data =>
    let i' := skipOrdered less data b (b - i) i
    if i' = b then (data, true)
    else if b - a < 50 then (data, false)
    else
      let d1 := swapAt data i' (i' - 1)
      let d2 := if i' - a ≥ 2 then shiftSmaller less (i' - 1) d1 else d1
      let d3 := if b - i' ≥ 2 then shiftGreater less b (b - i') (i' + 1) d2 else d2
      partialInsertionSortFrom less a b steps i' d3

/-- Go's `partialInsertionSort_func(data, a, b)`. -/
def partialInsertionSort_func {α : Type} (less : α → α → Bool) (data : List α) (a b : Nat) :
    List α × Bool :=
  partialInsertionSortFrom less a b 5 (a + 1) data

/-- The loop `for i <= j && data.Less(i, a) { i++ }` of `partition_func`. -/
def scanUp {α : Type} (less : α → α → Bool) (data : List α) (a j : Nat) : Nat → Nat → Nat
  | 0, i => i
  | fuel + 1, i =>
    if i ≤ j && lessAt less data i a then scanUp less data a j fuel (i + 1) else i

/-- The loop `for i <= j && !data.Less(j, a) { j-- }` of `partition_func`. -/
def scanDown {α : Type} (less : α → α → Bool) (data : List α) (a i : Nat) : Nat → Nat → Nat
  | 0, j => j
  | fuel + 1, j =>
    if i ≤ j && !lessAt less data j a then scanDown less data a i fuel (j - 1) else j

/-- The second loop of `partition_func`, from `i` and `j` on: the slice and the final `j`. -/
def partitionFrom {α : Type} (less : α → α → Bool) (a : Nat) :
    Nat → Nat → Nat → List α → List α × Nat
  | 0, _, j, data => (data, j)
  | fuel + 1, i, j, data =>
    let i' := scanUp less data a j (j + 1 - i) i
    let j' := scanDown less data a i' (j + 1 - i') j
    if i' > j' then (data, j')
    else partitionFrom less a fuel (i' + 1) (j' - 1) (swapAt data i' j')

/-- Go's `partition_func(data, a, b, pivot)`: the slice, the new pivot index, and whether the
slice was already partitioned. -/
def partition_func {α : Type} (less : α → α → Bool) (data : List α) (a b pivot : Nat) :
    List α × Nat × Bool :=
  let d0 := swapAt data a pivot
  let i := scanUp less d0 a (b - 1) (b - a) (a + 1)
  let j := scanDown less d0 a i (b - a) (b - 1)
  if i > j then (swapAt d0 j a, j, true)
  else
    let r := partitionFrom less a (b - a) (i + 1) (j - 1) (swapAt d0 i j)
    (swapAt r.1 r.2 a, r.2, false)

/-- The loop `for i <= j && !data.Less(a, i) { i++ }` of `partitionEqual_func`. -/
def scanUpEqual {α : Type} (less : α → α → Bool) (data : List α) (a j : Nat) :
    Nat → Nat → Nat
  | 0, i => i
  | fuel + 1, i =>
    if i ≤ j && !lessAt less data a i then scanUpEqual less data a j fuel (i + 1) else i

/-- The loop `for i <= j && data.Less(a, j) { j-- }` of `partitionEqual_func`. -/
def scanDownEqual {α : Type} (less : α → α → Bool) (data : List α) (a i : Nat) :
    Nat → Nat → Nat
  | 0, j => j
  | fuel + 1, j =>
    if i ≤ j && lessAt less data a j then scanDownEqual less data a i fuel (j - 1) else j

/-- The loop of `partitionEqual_func`, from `i` and `j` on: the slice and the final `i`. -/
def partitionEqualFrom {α : Type} (less : α → α → Bool) (a : Nat) :
    Nat → Nat → Nat → List α → List α × Nat
  | 0, i, _, data => (data, i)
  | fuel + 1, i, j, data =>
    let i' := scanUpEqual less data a j (j + 1 - i) i
    let j' := scanDownEqual less data a i' (j + 1 - i') j
    if i' > j' then (data, i')
    else partitionEqualFrom less a fuel (i' + 1) (j' - 1) (swapAt data i' j')

/-- Go's `partitionEqual_func(data, a, b, pivot)`: the slice and the new pivot index. -/
def partitionEqual_func {α : Type} (less : α → α → Bool) (data : List α) (a b pivot : Nat) :
    List α × Nat :=
  partitionEqualFrom less a (b - a + 1) (a + 1) (b - 1) (swapAt data a pivot)

/-- Go's `pdqsort_func(data, a, b, limit)`; the two flags are its local variables
`wasBalanced` and `wasPartitioned`, true on entry. Every turn of its loop and every call of
itself takes one unit of `fuel`; `none` when the fuel runs out. -/
def pdqsort_func {α : Type} (less : α → α → Bool) :
    Nat → List α → Nat → Nat → Nat → Bool → Bool → Option (List α)
  | 0, _, _, _, _, _, _ => none
  | fuel + 1, data, a, b, limit, wasBalanced, wasPartitioned =>
    if b - a ≤ 12 then some (insertionSort_func less data a b)
    else if limit = 0 then some (heapSort_func less data a b)
    else
      let d1 := if wasBalanced then data else breakPatterns_func data a b
      let limit' := if wasBalanced then limit else limit - 1
      let ph := choosePivot_func less d1 a b
      let d2 := if ph.2 = SortedHint.decreasingHint then reverseRange_func d1 a b else d1
      let pivot := if ph.2 = SortedHint.decreasingHint then (b - 1) - (ph.1 - a) else ph.1
      let hint :=
        if ph.2 = SortedHint.decreasingHint then SortedHint.increasingHint else ph.2
      let pis :=
        if wasBalanced && wasPartitioned && decide (hint = SortedHint.increasingHint) then
          partialInsertionSort_func less d2 a b
        else (d2, false)
      if pis.2 then some pis.1
      else if a > 0 && !lessAt less pis.1 (a - 1) pivot then
        let pe := partitionEqual_func less pis.1 a b pivot
        pdqsort_func less fuel pe.1 pe.2 b limit' wasBalanced wasPartitioned
      else
        let pt := partition_func less pis.1 a b pivot
        if pt.2.1 - a < b - pt.2.1 then
          match pdqsort_func less fuel pt.1 a pt.2.1 limit' true true with
          | none => none
          | some d3 =>
            pdqsort_func less fuel d3 (pt.2.1 + 1) b limit'
              (decide (pt.2.1 - a ≥ (b - a) / 8)) pt.2.2
        else
          match pdqsort_func less fuel pt.1 (pt.2.1 + 1) b limit' true true with
          | none => none
          | some d3 =>
            pdqsort_func less fuel d3 a pt.2.1 limit'
              (decide (b - pt.2.1 ≥ (b - a) / 8)) pt.2.2

/-- Go's `sort.Slice(x, less)` since Go 1.19, with `less` taken on the elements found at the
two indices: `pdqsort_func(data, 0, length, bits.Len(length))`. -/
def sortSliceRun {α : Type} (less : α → α → Bool) (data : List α) : Option (List α) :=
  pdqsort_func less (data.length + 1) data 0 data.length (bitsLen data.length) true true

/-- Go's `sort.Slice` on the registry. -/
def goSortSlice (less : InstallationInfo → InstallationInfo → Bool)
    (l : List InstallationInfo) : List InstallationInfo :=
  (sortSliceRun less l).getD l

/-! ## A concrete library and state for examples -/

/-- A small stand-in for the library, to run the operations on concrete states. The world is
the number of syncs that succeeded; the lock file can be read once there was one and when the
handle's profile exists. `AddMod`
rejects an empty mod reference and an empty constraint, `Install` fails when the profile asks
for the mod `Broken`. -/
def demoCli : Cli Nat where
  DefaultProfileName := "Default"
  ClearInstallations w := w
  AddInstallation w path profile :=
    if path = "" then (w, Except.error (Error.base "no such directory"))
    else (w, Except.ok { Path := path, Profile := profile })
  SetProfile w _ inst profile := (w, { inst with Profile := profile })
  Install w profiles inst :=
    match profiles inst.Profile with
    | none => (w, [], some (Error.base "profile not found"))
    | some p =>
      if p.Mods.any (fun m => m.1 == "Broken") then
        (w, [{ ModName := "Broken", DownloadProgress := Float64.fin 0 }],
          some (Error.base "could not resolve"))
      else
        (w + 1,
          p.Mods.flatMap (fun m =>
            [{ ModName := m.1, DownloadProgress := Float64.fin 0 },
             { ModName := m.1, DownloadProgress := Float64.fin 1 }]),
          none)
  LockFile w profiles inst :=
    if w = 0 then Except.error (Error.base "no lock file")
    else
      match profiles inst.Profile with
      | none => Except.error (Error.base "profile not found")
      | some p => Except.ok (p.Mods.map (fun m => (m.1, m.2.Version)))
  AddMod p mod version :=
    if mod = "" then (p, some (Error.base "empty mod reference"))
    else if version = "" then (p, some (Error.base "invalid version constraint"))
    else
      ({ p with Mods := p.Mods.filter (fun m => m.1 != mod) ++ [(mod, { Version := version, Enabled := true })] },
        none)
  RemoveMod p mod := { p with Mods := p.Mods.filter (fun m => m.1 != mod) }
  SetModEnabled p mod enabled :=
    { p with Mods := p.Mods.map (fun m => if m.1 = mod then (m.1, { m.2 with Enabled := enabled }) else m) }
  Save w _ := w
  DeleteProfile profiles name :=
    match profiles name with
    | none => (profiles, some (Error.base "profile not found"))
    | some _ =>
      if name = "Default" then (profiles, some (Error.base "cannot delete the default profile"))
      else (fun k => if k = name then none else profiles k, none)

/-- One Steam installation on the profile `Default`, which holds no mods; nothing synced yet. -/
def demoState : FicsitCLI Nat :=
  { world := 0
    Profiles := fun k => if k = "Default" then some { Name := "Default", Mods := [] } else none
    installations :=
      [{ Installation := { Path := "/games/sf", Profile := "Default" }
         Info := { Path := "/games/sf", Launcher := "Steam", Branch := "main" } }]
    selectedInstallation := some 0
    progress := none
    trace := [] }

/-- The state `demoState` under a scheduler that lets the listener goroutine handle the last
update only after the calling goroutine has cleared the progress. -/
def lateState : FicsitCLI Nat := { demoState with lag := 4 }

/-- The library `demoCli` with a lock file that cannot be read. -/
def unreadableCli : Cli Nat :=
  { demoCli with LockFile := fun _ _ _ => Except.error (Error.base "lock file unreadable") }

/-- The handle of `demoState`. -/
def demoHandle : InstallationInfo :=
  { Installation := { Path := "/games/sf", Profile := "Default" }
    Info := { Path := "/games/sf", Launcher := "Steam", Branch := "main" } }

/-- A state before start-up: nothing registered, nothing selected. -/
def emptyState : FicsitCLI Nat :=
  { world := 0
    Profiles := fun k => if k = "Default" then some { Name := "Default", Mods := [] } else none
    installations := []
    selectedInstallation := none
    progress := none
    trace := [] }

/-- The three installations of the sorting example, in discovery order. -/
def exampleInstalls : List FinderInstallation :=
  [{ Path := "/epic/exp", Launcher := "Epic", Branch := "experimental" },
   { Path := "/steam/main", Launcher := "Steam", Branch := "main" },
   { Path := "/epic/main", Launcher := "Epic", Branch := "main" }]

/-- Thirteen installations in discovery order: twelve of Steam/main, then one of Epic/main. -/
def thirteenInstalls : List FinderInstallation :=
  [{ Path := "/steam/00", Launcher := "Steam", Branch := "main" },
   { Path := "/steam/01", Launcher := "Steam", Branch := "main" },
   { Path := "/steam/02", Launcher := "Steam", Branch := "main" },
   { Path := "/steam/03", Launcher := "Steam", Branch := "main" },
   { Path := "/steam/04", Launcher := "Steam", Branch := "main" },
   { Path := "/steam/05", Launcher := "Steam", Branch := "main" },
   { Path := "/steam/06", Launcher := "Steam", Branch := "main" },
   { Path := "/steam/07", Launcher := "Steam", Branch := "main" },
   { Path := "/steam/08", Launcher := "Steam", Branch := "main" },
   { Path := "/steam/09", Launcher := "Steam", Branch := "main" },
   { Path := "/steam/10", Launcher := "Steam", Branch := "main" },
   { Path := "/steam/11", Launcher := "Steam", Branch := "main" },
   { Path := "/epic/main", Launcher := "Epic", Branch := "main" }]

/-- One Steam installation on the profile `Modded`, which holds the mod `X`; a second profile
`Default`; one sync has been made. -/
def syncedState : FicsitCLI Nat :=
  { world := 1
    Profiles := fun k =>
      if k = "Modded" then
        some { Name := "Modded", Mods := [("X", { Version := "1.0.0", Enabled := true })] }
      else if k = "Default" then some { Name := "Default", Mods := [] }
      else none
    installations :=
      [{ Installation := { Path := "/games/sf", Profile := "Modded" }
         Info := { Path := "/games/sf", Launcher := "Steam", Branch := "main" } }]
    selectedInstallation := some 0
    progress := none
    trace := [] }

/-- The handle of `syncedState`. -/
def syncedHandle : InstallationInfo :=
  { Installation := { Path := "/games/sf", Profile := "Modded" }
    Info := { Path := "/games/sf", Launcher := "Steam", Branch := "main" } }

/-- Settings with two favourites and nothing done yet. -/
def demoSettings : Settings :=
  { Data := { FavouriteMods := ["A", "B"], AppHeight := 700, ExpandedAppWidth := 1200 }
    trace := [] }

/-- The state after start-up on the three example installations. -/
def startedState : FicsitCLI Nat :=
  (initInstallations demoCli insertionSortSlice exampleInstalls [] emptyState).2

/-! ## Running the operations -/

theorem bind_run {σ α β : Type} (m : Op σ α) (k : α → Op σ β) (s : σ) :
    (m >>= k) s = match m s with
      | (Outcome.ok a, s') => k a s'
      | (Outcome.panic e, s') => (Outcome.panic e, s') := rfl

theorem pure_run {σ α : Type} (a : α) (s : σ) :
    (pure a : Op σ α) s = (Outcome.ok a, s) := rfl

theorem listenerStep_run (progressItem : String) (data : InstallUpdate) (f : FicsitCLI W) :
    listenerStep progressItem data f =
      (Outcome.ok (),
        { f with
          progress := some (updateProgress progressItem data)
          trace := f.trace ++ [Effect.emitProgress (some (updateProgress progressItem data))] }) := by
  unfold listenerStep updateProgress
  split <;> simp_all [SetProgress, bind_run, Op.modify, Op.get, emit]

theorem listener_run (progressItem : String) (updates : List InstallUpdate) (f : FicsitCLI W) :
    listener progressItem updates f =
      (Outcome.ok (),
        { f with
          progress := ((updates.map (updateProgress progressItem)).getLast?).or f.progress
          trace := f.trace ++
            updates.map (fun u => Effect.emitProgress (some (updateProgress progressItem u))) }) := by
  induction updates generalizing f with
  | nil => simp [listener, pure_run]
  | cons d rest ih =>
    rw [listener, bind_run, listenerStep_run]
    simp only [ih]
    cases rest with
    | nil => simp
    | cons d' rest' =>
      have hne : updateProgress progressItem d' :: List.map (updateProgress progressItem) rest' ≠ [] := by
        simp
      simp [List.getLast?_cons_cons, List.getLast?_eq_getLast _ hne]

theorem currentInstallation_some {f : FicsitCLI W} {j : Nat} {h : InstallationInfo}
    (hcur : currentInstallation f = some (j, h)) :
    ∃ i sel, f.selectedInstallation = some i ∧ f.installations[i]? = some sel ∧
      GetInstallation f sel.Info.Path = some j ∧ f.installations[j]? = some h := by
  unfold currentInstallation at hcur
  cases hsel : f.selectedInstallation with
  | none => simp [hsel] at hcur
  | some i =>
    cases hi : f.installations[i]? with
    | none => simp [hsel, hi] at hcur
    | some sel =>
      cases hj : GetInstallation f sel.Info.Path with
      | none => simp [hsel, hi, hj] at hcur
      | some j' =>
        cases hh : f.installations[j']? with
        | none => simp [hsel, hi, hj, hh] at hcur
        | some h' =>
          simp [hsel, hi, hj, hh] at hcur
          obtain ⟨rfl, rfl⟩ := hcur
          refine ⟨i, sel, ?_, ?_, ?_, ?_⟩ <;> first | rfl | assumption

theorem currentProfile_run {f : FicsitCLI W} {j : Nat} {h : InstallationInfo}
    (hcur : currentInstallation f = some (j, h)) :
    currentProfile f =
      (Outcome.ok (some j, h.Installation.Profile, GetProfile f h.Installation.Profile), f) := by
  obtain ⟨i, sel, hsel, hi, hj, hh⟩ := currentInstallation_some hcur
  simp [currentProfile, selectedPath, handle, bind_run, pure_run, Op.get, Op.deref, hsel, hi,
    hj, hh]

theorem validateInstall_run (cli : Cli W) (w : W) (profiles : ProfileMap)
    (installs : List InstallationInfo) (sel : Option Nat) (pr : Option Progress)
    (t : List Effect) (k : Nat) (l0 : Option (String × InstallUpdate)) {j : Nat}
    {h : InstallationInfo} (hh : installs[j]? = some h) (progressItem : String) :
    validateInstall cli (some j) progressItem
        { world := w, Profiles := profiles, installations := installs,
          selectedInstallation := sel, progress := pr, trace := t, lag := k, late := l0 } =
      (Outcome.ok (cli.Install w profiles h.Installation).2.2,
        { world := (cli.Install w profiles h.Installation).1
          Profiles := profiles
          installations := installs
          selectedInstallation := sel
          progress :=
            (((handledInTime k (cli.Install w profiles h.Installation).2.1).map
              (updateProgress progressItem)).getLast?).or pr
          trace := t ++ Effect.callInstall h.Installation ::
            (handledInTime k (cli.Install w profiles h.Installation).2.1).map
              (fun u => Effect.emitProgress (some (updateProgress progressItem u)))
          lag := k
          late := leftLate k progressItem (cli.Install w profiles h.Installation).2.1 }) := by
  by_cases hk : k = 0
  · simp [validateInstall, handle, bind_run, pure_run, Op.get, Op.deref, Op.modify, emit, hh,
      listener_run, handledInTime, leftLate, hk]
  · simp [validateInstall, handle, bind_run, pure_run, Op.get, Op.deref, Op.modify, emit, hh,
      listener_run, handledInTime, leftLate, hk]

theorem SetProgress_run (progress : Option Progress) (f : FicsitCLI W) :
    SetProgress progress f =
      (Outcome.ok (),
        { f with progress := progress, trace := f.trace ++ [Effect.emitProgress progress] }) := by
  simp [SetProgress, bind_run, Op.get, Op.modify, emit]

theorem Save_run (cli : Cli W) (f : FicsitCLI W) :
    Save cli f =
      (Outcome.ok (),
        { f with world := cli.Save f.world f.Profiles, trace := f.trace ++ [Effect.callSave] }) := by
  simp [Save, bind_run, Op.modify, emit]

theorem listenerTurn_run (n : Nat) (f : FicsitCLI W) :
    listenerTurn n f =
      match f.late with
      | none => (Outcome.ok (), f)
      | some (progressItem, data) =>
        if f.lag = n then
          (Outcome.ok (),
            { f with
              late := none
              progress := some (updateProgress progressItem data)
              trace := f.trace ++
                [Effect.emitProgress (some (updateProgress progressItem data))] })
        else (Outcome.ok (), f) := by
  cases hl : f.late with
  | none => simp [listenerTurn, bind_run, pure_run, Op.get, hl]
  | some x =>
    obtain ⟨progressItem, data⟩ := x
    by_cases hn : f.lag = n
    · simp [listenerTurn, bind_run, pure_run, Op.get, Op.modify, hl, hn, listenerStep_run]
    · simp [listenerTurn, bind_run, pure_run, Op.get, hl, hn]

theorem emitModsChangeWith_run (cli : Cli W) (between : Op (FicsitCLI W) Unit)
    (f : FicsitCLI W) {j : Nat} {h : InstallationInfo}
    (hcur : currentInstallation f = some (j, h)) :
    emitModsChangeWith cli between f =
      match cli.LockFile f.world f.Profiles h.Installation with
      | Except.error err => (Outcome.ok (), { f with trace := f.trace ++ [Effect.logError err] })
      | Except.ok lockfile =>
        match between { f with trace := f.trace ++ [Effect.emitLockfileMods lockfile] } with
        | (Outcome.ok _, g) =>
          (match f.Profiles h.Installation.Profile with
            | some p =>
              (Outcome.ok (), { g with trace := g.trace ++ [Effect.emitManifestMods p.Mods] })
            | none => (Outcome.panic "invalid memory address or nil pointer dereference", g))
        | (Outcome.panic e, g) => (Outcome.panic e, g) := by
  obtain ⟨i, sel, hsel, hi, hj, hh⟩ := currentInstallation_some hcur
  cases hl : cli.LockFile f.world f.Profiles h.Installation with
  | error err =>
    simp [emitModsChangeWith, selectedPath, handle, bind_run, pure_run, Op.get, Op.deref, hsel,
      hi, hj, hh, hl, emit, Op.modify]
  | ok lockfile =>
    simp only [emitModsChangeWith, selectedPath, handle, bind_run, pure_run, Op.get, Op.deref,
      hsel, hi, hj, hh, hl, emit, Op.modify, GetProfile]
    rw [← hsel]
    rcases between { f with trace := f.trace ++ [Effect.emitLockfileMods lockfile] } with ⟨o, g⟩
    cases o with
    | panic e => simp
    | ok u =>
      cases hp : f.Profiles h.Installation.Profile with
      | none => simp [Op.panic, bind_run, hp]
      | some p => simp [bind_run, pure_run, hp]

theorem emitModsChange_run (cli : Cli W) (f : FicsitCLI W) {j : Nat} {h : InstallationInfo}
    (hcur : currentInstallation f = some (j, h)) :
    emitModsChange cli f =
      ((match cli.LockFile f.world f.Profiles h.Installation, f.Profiles h.Installation.Profile with
        | Except.ok _, none => Outcome.panic "invalid memory address or nil pointer dereference"
        | _, _ => Outcome.ok ()),
        { f with trace := f.trace ++ modsChangeEvents cli f.world f.Profiles h }) := by
  rw [emitModsChange, emitModsChangeWith_run cli _ f hcur]
  unfold modsChangeEvents
  cases hl : cli.LockFile f.world f.Profiles h.Installation with
  | error err => rfl
  | ok lockfile =>
    cases hp : f.Profiles h.Installation.Profile with
    | none => simp [pure_run]
    | some p => simp [pure_run]

theorem syncTail_run_fail (cli : Cli W) {f : FicsitCLI W} {j : Nat} {h : InstallationInfo}
    (hh : f.installations[j]? = some h) (mod startMsg failMsg : String) {e : Error}
    (hfail : (cli.Install f.world f.Profiles h.Installation).2.2 = some e) :
    syncTail cli (some j) mod startMsg failMsg f =
      (Outcome.ok (some (Error.wrap e failMsg)),
        { f with
          world := (cli.Install f.world f.Profiles h.Installation).1
          progress :=
            (((handledInTime f.lag (cli.Install f.world f.Profiles h.Installation).2.1).map
              (updateProgress mod)).getLast?).or
              (some { Item := mod, Message := startMsg, Progress := Float64.fin (-1) })
          trace := f.trace ++
            Effect.emitProgress
              (some { Item := mod, Message := startMsg, Progress := Float64.fin (-1) }) ::
            syncEvents h mod
              (handledInTime f.lag (cli.Install f.world f.Profiles h.Installation).2.1)
          late := leftLate f.lag mod (cli.Install f.world f.Profiles h.Installation).2.1 }) := by
  rw [syncTail, bind_run, SetProgress_run]
  simp only []
  rw [bind_run, validateInstall_run cli _ _ _ _ _ _ _ _ hh]
  simp [hfail, pure_run, Wrapf, syncEvents]

theorem syncTail_run_ok (cli : Cli W) {f : FicsitCLI W} {j : Nat} {h : InstallationInfo}
    (hh : f.installations[j]? = some h) (mod startMsg failMsg : String)
    (hok : (cli.Install f.world f.Profiles h.Installation).2.2 = none) :
    syncTail cli (some j) mod startMsg failMsg f =
      afterSync cli (afterInstall cli f h mod startMsg) := by
  rw [syncTail, bind_run, SetProgress_run]
  simp only []
  rw [bind_run, validateInstall_run cli _ _ _ _ _ _ _ _ hh]
  simp only [hok, syncEvents, List.append_assoc, List.singleton_append]
  rfl

/-! ## The five operations as mutation followed by the shared tail -/

theorem InstallModVersion_run_addFail (cli : Cli W) {f : FicsitCLI W} {j : Nat}
    {h : InstallationInfo} (hcur : currentInstallation f = some (j, h)) {p : Profile}
    (hp : f.Profiles h.Installation.Profile = some p) (mod version : String) {e : Error}
    (herr : (cli.AddMod p mod version).2 = some e) :
    InstallModVersion cli mod version f =
      (Outcome.ok (some (Error.wrap e ("Failed to add mod: " ++ mod ++ "@" ++ version))),
        { f with Profiles :=
            withProfile f.Profiles h.Installation.Profile (cli.AddMod p mod version).1 }) := by
  simp [InstallModVersion, bind_run, currentProfile_run hcur, AddMod, storeProfile, GetProfile,
    hp, Op.deref, pure_run, Op.modify, herr, Wrapf]

theorem InstallMod_run_addFail (cli : Cli W) {f : FicsitCLI W} {j : Nat}
    {h : InstallationInfo} (hcur : currentInstallation f = some (j, h)) {p : Profile}
    (hp : f.Profiles h.Installation.Profile = some p) (mod : String) {e : Error}
    (herr : (cli.AddMod p mod ">=0.0.0").2 = some e) :
    InstallMod cli mod f =
      (Outcome.ok (some (Error.wrap e ("Failed to add mod: " ++ mod ++ "@latest"))),
        { f with Profiles :=
            withProfile f.Profiles h.Installation.Profile (cli.AddMod p mod ">=0.0.0").1 }) := by
  simp [InstallMod, bind_run, currentProfile_run hcur, AddMod, storeProfile, GetProfile,
    hp, Op.deref, pure_run, Op.modify, herr, Wrapf]

theorem InstallMod_eq_syncTail (cli : Cli W) {f : FicsitCLI W} {j : Nat}
    {h : InstallationInfo} (hcur : currentInstallation f = some (j, h)) {p : Profile}
    (hp : f.Profiles h.Installation.Profile = some p) (mod : String)
    (hadd : (cli.AddMod p mod ">=0.0.0").2 = none) :
    InstallMod cli mod f =
      syncTail cli (some j) mod "Finding the best version to install"
        ("Failed to install mod: " ++ mod ++ "@latest")
        { f with Profiles :=
            withProfile f.Profiles h.Installation.Profile (cli.AddMod p mod ">=0.0.0").1 } := by
  simp [InstallMod, bind_run, currentProfile_run hcur, AddMod, storeProfile, GetProfile,
    hp, Op.deref, pure_run, Op.modify, hadd, syncTail]

theorem InstallModVersion_eq_syncTail (cli : Cli W) {f : FicsitCLI W} {j : Nat}
    {h : InstallationInfo} (hcur : currentInstallation f = some (j, h)) {p : Profile}
    (hp : f.Profiles h.Installation.Profile = some p) (mod version : String)
    (hadd : (cli.AddMod p mod version).2 = none) :
    InstallModVersion cli mod version f =
      syncTail cli (some j) mod "Finding the best version to install"
        ("Failed to install mod: " ++ mod ++ "@" ++ version)
        { f with Profiles :=
            withProfile f.Profiles h.Installation.Profile (cli.AddMod p mod version).1 } := by
  simp [InstallModVersion, bind_run, currentProfile_run hcur, AddMod, storeProfile, GetProfile,
    hp, Op.deref, pure_run, Op.modify, hadd, syncTail]

theorem RemoveMod_eq_syncTail (cli : Cli W) {f : FicsitCLI W} {j : Nat}
    {h : InstallationInfo} (hcur : currentInstallation f = some (j, h)) {p : Profile}
    (hp : f.Profiles h.Installation.Profile = some p) (mod : String) :
    RemoveMod cli mod f =
      syncTail cli (some j) mod "Checking for mods that are no longer needed"
        ("Failed to remove mod: " ++ mod)
        { f with Profiles :=
            withProfile f.Profiles h.Installation.Profile (cli.RemoveMod p mod) } := by
  simp [RemoveMod, bind_run, currentProfile_run hcur, RemoveModOfProfile, storeProfile,
    GetProfile, hp, Op.deref, pure_run, Op.modify, syncTail]

theorem EnableMod_eq_syncTail (cli : Cli W) {f : FicsitCLI W} {j : Nat}
    {h : InstallationInfo} (hcur : currentInstallation f = some (j, h)) {p : Profile}
    (hp : f.Profiles h.Installation.Profile = some p) (mod : String) :
    EnableMod cli mod f =
      syncTail cli (some j) mod "Finding the best version to install"
        ("Failed to enable mod: " ++ mod)
        { f with Profiles :=
            withProfile f.Profiles h.Installation.Profile (cli.SetModEnabled p mod true) } := by
  simp [EnableMod, bind_run, currentProfile_run hcur, SetModEnabled, storeProfile,
    GetProfile, hp, Op.deref, pure_run, Op.modify, syncTail]

theorem DisableMod_eq_syncTail (cli : Cli W) {f : FicsitCLI W} {j : Nat}
    {h : InstallationInfo} (hcur : currentInstallation f = some (j, h)) {p : Profile}
    (hp : f.Profiles h.Installation.Profile = some p) (mod : String) :
    DisableMod cli mod f =
      syncTail cli (some j) mod "Checking for mods that are no longer needed"
        ("Failed to disable mod: " ++ mod)
        { f with Profiles :=
            withProfile f.Profiles h.Installation.Profile (cli.SetModEnabled p mod false) } := by
  simp [DisableMod, bind_run, currentProfile_run hcur, SetModEnabled, storeProfile,
    GetProfile, hp, Op.deref, pure_run, Op.modify, syncTail]

theorem withProfile_self (profiles : ProfileMap) (name : String) (p : Profile) :
    withProfile profiles name p name = some p := by
  simp [withProfile]

theorem broadcasts_map_emitProgress (l : List (Option Progress)) :
    broadcasts (l.map Effect.emitProgress) = l := by
  induction l with
  | nil => rfl
  | cons x rest ih => simp [broadcasts, ih]

theorem afterSync_run_quiet (cli : Cli W) (g : FicsitCLI W) {j : Nat} {h : InstallationInfo}
    (hcur : currentInstallation g = some (j, h)) {p : Profile}
    (hp : g.Profiles h.Installation.Profile = some p)
    (hq : g.late = none ∨ (g.lag ≠ 1 ∧ g.lag ≠ 2 ∧ g.lag ≠ 3 ∧ g.lag ≠ 4)) :
    afterSync cli g =
      (Outcome.ok none,
        { g with
          world := cli.Save g.world g.Profiles
          progress := none
          trace := g.trace ++ callerTail cli (cli.Save g.world g.Profiles) g.Profiles h p }) := by
  have hcur' : ∀ (w : W) (pr : Option Progress) (t : List Effect) (k : Nat)
      (l : Option (String × InstallUpdate)),
      currentInstallation
        { g with world := w, progress := pr, trace := t, lag := k, late := l } = some (j, h) :=
    fun _ _ _ _ _ => hcur
  cases hl : cli.LockFile (cli.Save g.world g.Profiles) g.Profiles h.Installation with
  | error err =>
    rcases hq with hq | ⟨h1, h2, h3, h4⟩
    · simp [afterSync, bind_run, pure_run, Save_run, listenerTurn_run, SetProgress_run, hq,
        emitModsChangeWith_run cli _ _ (hcur' _ _ _ _ _), hp, hl, callerTail]
    · cases hL : g.late with
      | none =>
        simp [afterSync, bind_run, pure_run, Save_run, listenerTurn_run, SetProgress_run, hL,
          emitModsChangeWith_run cli _ _ (hcur' _ _ _ _ _), hp, hl, callerTail]
      | some x =>
        simp [afterSync, bind_run, pure_run, Save_run, listenerTurn_run, SetProgress_run, hL,
          emitModsChangeWith_run cli _ _ (hcur' _ _ _ _ _), hp, hl, callerTail, h1, h2, h3, h4]
  | ok lockfile =>
    rcases hq with hq | ⟨h1, h2, h3, h4⟩
    · simp [afterSync, bind_run, pure_run, Save_run, listenerTurn_run, SetProgress_run, hq,
        emitModsChangeWith_run cli _ _ (hcur' _ _ _ _ _), hp, hl, callerTail]
    · cases hL : g.late with
      | none =>
        simp [afterSync, bind_run, pure_run, Save_run, listenerTurn_run, SetProgress_run, hL,
          emitModsChangeWith_run cli _ _ (hcur' _ _ _ _ _), hp, hl, callerTail]
      | some x =>
        simp [afterSync, bind_run, pure_run, Save_run, listenerTurn_run, SetProgress_run, hL,
          emitModsChangeWith_run cli _ _ (hcur' _ _ _ _ _), hp, hl, callerTail, h1, h2, h3, h4]


theorem getLast?_callerTail (cli : Cli W) (w : W) (profiles : ProfileMap)
    (h : InstallationInfo) (p : Profile) (pre : List Effect) :
    (pre ++ callerTail cli w profiles h p).getLast? = some (Effect.emitProgress none) := by
  unfold callerTail
  cases cli.LockFile w profiles h.Installation <;> simp [List.getLast?_append]

theorem afterSync_spec (cli : Cli W) (g : FicsitCLI W) {j : Nat} {h : InstallationInfo}
    (hcur : currentInstallation g = some (j, h)) {p : Profile}
    (hp : g.Profiles h.Installation.Profile = some p) :
    (afterSync cli g).1 = Outcome.ok none ∧
      ∃ pre post late : List Effect,
        (afterSync cli g).2.trace = g.trace ++ (pre ++ late ++ post) ∧
        pre ++ post = callerTail cli (cli.Save g.world g.Profiles) g.Profiles h p ∧
        (late = [] ∨
          ∃ item data, g.late = some (item, data) ∧ pre ≠ [] ∧
            late = [Effect.emitProgress (some (updateProgress item data))]) ∧
        ((late = [] ∨ post ≠ []) →
          (afterSync cli g).2.progress = none ∧
            (afterSync cli g).2.trace.getLast? = some (Effect.emitProgress none)) := by
  have hcur' : ∀ (w : W) (pr : Option Progress) (t : List Effect) (k : Nat)
      (l : Option (String × InstallUpdate)),
      currentInstallation
        { g with world := w, progress := pr, trace := t, lag := k, late := l } = some (j, h) :=
    fun _ _ _ _ _ => hcur
  by_cases hq : g.late = none ∨ (g.lag ≠ 1 ∧ g.lag ≠ 2 ∧ g.lag ≠ 3 ∧ g.lag ≠ 4)
  · rw [afterSync_run_quiet cli g hcur hp hq]
    refine ⟨rfl, callerTail cli (cli.Save g.world g.Profiles) g.Profiles h p, [], [], by simp,
      by simp, Or.inl rfl, fun _ => ⟨rfl, getLast?_callerTail _ _ _ _ _ _⟩⟩
  · have hL : ∃ item data, g.late = some (item, data) := by
      cases hl : g.late with
      | none => exact absurd (Or.inl hl) hq
      | some x => exact ⟨x.1, x.2, rfl⟩
    obtain ⟨item, data, hL⟩ := hL
    have hk : g.lag = 1 ∨ g.lag = 2 ∨ g.lag = 3 ∨ g.lag = 4 := by
      by_contra hne
      exact hq (Or.inr ⟨fun e => hne (Or.inl e), fun e => hne (Or.inr (Or.inl e)),
        fun e => hne (Or.inr (Or.inr (Or.inl e))), fun e => hne (Or.inr (Or.inr (Or.inr e)))⟩)
    cases hl : cli.LockFile (cli.Save g.world g.Profiles) g.Profiles h.Installation with
    | error err =>
      rcases hk with hk | hk | hk | hk
      · have e1 : (afterSync cli g).1 = Outcome.ok none ∧
            (afterSync cli g).2.progress = none ∧
            (afterSync cli g).2.trace = g.trace ++
              ([Effect.callSave] ++ [Effect.emitProgress (some (updateProgress item data))] ++ [Effect.logError err, Effect.emitProgress none]) := by
          simp [afterSync, bind_run, pure_run, Save_run, listenerTurn_run, SetProgress_run, hL,
            emitModsChangeWith_run cli _ _ (hcur' _ _ _ _ _), hp, hl, hk]
        refine ⟨e1.1, [Effect.callSave], [Effect.logError err, Effect.emitProgress none], [Effect.emitProgress (some (updateProgress item data))], e1.2.2, by simp [callerTail, hl], ?_, ?_⟩
        · exact Or.inr ⟨item, data, hL, by simp, rfl⟩
        · intro _
          refine ⟨e1.2.1, ?_⟩
          rw [e1.2.2]
          simp [List.getLast?_append]
      · have e1 : (afterSync cli g).1 = Outcome.ok none ∧
            (afterSync cli g).2.progress = none ∧
            (afterSync cli g).2.trace = g.trace ++
              ([Effect.callSave, Effect.logError err, Effect.emitProgress none] ++ [] ++ []) := by
          simp [afterSync, bind_run, pure_run, Save_run, listenerTurn_run, SetProgress_run, hL,
            emitModsChangeWith_run cli _ _ (hcur' _ _ _ _ _), hp, hl, hk]
        refine ⟨e1.1, [Effect.callSave, Effect.logError err, Effect.emitProgress none], [], [], e1.2.2, by simp [callerTail, hl], ?_, ?_⟩
        · exact Or.inl rfl
        · intro _
          refine ⟨e1.2.1, ?_⟩
          rw [e1.2.2]
          simp [List.getLast?_append]
      · have e1 : (afterSync cli g).1 = Outcome.ok none ∧
            (afterSync cli g).2.progress = none ∧
            (afterSync cli g).2.trace = g.trace ++
              ([Effect.callSave, Effect.logError err] ++ [Effect.emitProgress (some (updateProgress item data))] ++ [Effect.emitProgress none]) := by
          simp [afterSync, bind_run, pure_run, Save_run, listenerTurn_run, SetProgress_run, hL,
            emitModsChangeWith_run cli _ _ (hcur' _ _ _ _ _), hp, hl, hk]
        refine ⟨e1.1, [Effect.callSave, Effect.logError err], [Effect.emitProgress none], [Effect.emitProgress (some (updateProgress item data))], e1.2.2, by simp [callerTail, hl], ?_, ?_⟩
        · exact Or.inr ⟨item, data, hL, by simp, rfl⟩
        · intro _
          refine ⟨e1.2.1, ?_⟩
          rw [e1.2.2]
          simp [List.getLast?_append]
      · have e1 : (afterSync cli g).1 = Outcome.ok none ∧
            (afterSync cli g).2.progress = some (updateProgress item data) ∧
            (afterSync cli g).2.trace = g.trace ++
              ([Effect.callSave, Effect.logError err, Effect.emitProgress none] ++ [Effect.emitProgress (some (updateProgress item data))] ++ []) := by
          simp [afterSync, bind_run, pure_run, Save_run, listenerTurn_run, SetProgress_run, hL,
            emitModsChangeWith_run cli _ _ (hcur' _ _ _ _ _), hp, hl, hk]
        refine ⟨e1.1, [Effect.callSave, Effect.logError err, Effect.emitProgress none], [], [Effect.emitProgress (some (updateProgress item data))], e1.2.2, by simp [callerTail, hl], ?_, ?_⟩
        · exact Or.inr ⟨item, data, hL, by simp, rfl⟩
        · intro hc
          simp at hc
    | ok lockfile =>
      rcases hk with hk | hk | hk | hk
      · have e1 : (afterSync cli g).1 = Outcome.ok none ∧
            (afterSync cli g).2.progress = none ∧
            (afterSync cli g).2.trace = g.trace ++
              ([Effect.callSave] ++ [Effect.emitProgress (some (updateProgress item data))] ++ [Effect.emitLockfileMods lockfile, Effect.emitManifestMods p.Mods, Effect.emitProgress none]) := by
          simp [afterSync, bind_run, pure_run, Save_run, listenerTurn_run, SetProgress_run, hL,
            emitModsChangeWith_run cli _ _ (hcur' _ _ _ _ _), hp, hl, hk]
        refine ⟨e1.1, [Effect.callSave], [Effect.emitLockfileMods lockfile, Effect.emitManifestMods p.Mods, Effect.emitProgress none], [Effect.emitProgress (some (updateProgress item data))], e1.2.2, by simp [callerTail, hl], ?_, ?_⟩
        · exact Or.inr ⟨item, data, hL, by simp, rfl⟩
        · intro _
          refine ⟨e1.2.1, ?_⟩
          rw [e1.2.2]
          simp [List.getLast?_append]
      · have e1 : (afterSync cli g).1 = Outcome.ok none ∧
            (afterSync cli g).2.progress = none ∧
            (afterSync cli g).2.trace = g.trace ++
              ([Effect.callSave, Effect.emitLockfileMods lockfile] ++ [Effect.emitProgress (some (updateProgress item data))] ++ [Effect.emitManifestMods p.Mods, Effect.emitProgress none]) := by
          simp [afterSync, bind_run, pure_run, Save_run, listenerTurn_run, SetProgress_run, hL,
            emitModsChangeWith_run cli _ _ (hcur' _ _ _ _ _), hp, hl, hk]
        refine ⟨e1.1, [Effect.callSave, Effect.emitLockfileMods lockfile], [Effect.emitManifestMods p.Mods, Effect.emitProgress none], [Effect.emitProgress (some (updateProgress item data))], e1.2.2, by simp [callerTail, hl], ?_, ?_⟩
        · exact Or.inr ⟨item, data, hL, by simp, rfl⟩
        · intro _
          refine ⟨e1.2.1, ?_⟩
          rw [e1.2.2]
          simp [List.getLast?_append]
      · have e1 : (afterSync cli g).1 = Outcome.ok none ∧
            (afterSync cli g).2.progress = none ∧
            (afterSync cli g).2.trace = g.trace ++
              ([Effect.callSave, Effect.emitLockfileMods lockfile, Effect.emitManifestMods p.Mods] ++ [Effect.emitProgress (some (updateProgress item data))] ++ [Effect.emitProgress none]) := by
          simp [afterSync, bind_run, pure_run, Save_run, listenerTurn_run, SetProgress_run, hL,
            emitModsChangeWith_run cli _ _ (hcur' _ _ _ _ _), hp, hl, hk]
        refine ⟨e1.1, [Effect.callSave, Effect.emitLockfileMods lockfile, Effect.emitManifestMods p.Mods], [Effect.emitProgress none], [Effect.emitProgress (some (updateProgress item data))], e1.2.2, by simp [callerTail, hl], ?_, ?_⟩
        · exact Or.inr ⟨item, data, hL, by simp, rfl⟩
        · intro _
          refine ⟨e1.2.1, ?_⟩
          rw [e1.2.2]
          simp [List.getLast?_append]
      · have e1 : (afterSync cli g).1 = Outcome.ok none ∧
            (afterSync cli g).2.progress = some (updateProgress item data) ∧
            (afterSync cli g).2.trace = g.trace ++
              ([Effect.callSave, Effect.emitLockfileMods lockfile, Effect.emitManifestMods p.Mods, Effect.emitProgress none] ++ [Effect.emitProgress (some (updateProgress item data))] ++ []) := by
          simp [afterSync, bind_run, pure_run, Save_run, listenerTurn_run, SetProgress_run, hL,
            emitModsChangeWith_run cli _ _ (hcur' _ _ _ _ _), hp, hl, hk]
        refine ⟨e1.1, [Effect.callSave, Effect.emitLockfileMods lockfile, Effect.emitManifestMods p.Mods, Effect.emitProgress none], [], [Effect.emitProgress (some (updateProgress item data))], e1.2.2, by simp [callerTail, hl], ?_, ?_⟩
        · exact Or.inr ⟨item, data, hL, by simp, rfl⟩
        · intro hc
          simp at hc


theorem syncTail_succeeds (cli : Cli W) {f : FicsitCLI W} {j : Nat} {h : InstallationInfo}
    (hcur : currentInstallation f = some (j, h)) (p : Profile) (mod startMsg failMsg : String)
    (hok : (cli.Install f.world (withProfile f.Profiles h.Installation.Profile p)
      h.Installation).2.2 = none) :
    SucceedsWith cli f h p mod startMsg
      (cli.Install f.world (withProfile f.Profiles h.Installation.Profile p) h.Installation).2.1
      (syncTail cli (some j) mod startMsg failMsg
        { f with Profiles := withProfile f.Profiles h.Installation.Profile p }) := by
  obtain ⟨_, _, _, _, _, hh⟩ := currentInstallation_some hcur
  have key := syncTail_run_ok cli
    (f := { f with Profiles := withProfile f.Profiles h.Installation.Profile p })
    hh mod startMsg failMsg hok
  rw [key]
  have hcurG : currentInstallation
      (afterInstall cli { f with Profiles := withProfile f.Profiles h.Installation.Profile p }
        h mod startMsg) = some (j, h) := hcur
  have hpG : (afterInstall cli
      { f with Profiles := withProfile f.Profiles h.Installation.Profile p }
      h mod startMsg).Profiles h.Installation.Profile = some p := withProfile_self _ _ _
  obtain ⟨hret, pre, post, late, htrace, htail, hlate, hlast⟩ :=
    afterSync_spec cli _ hcurG hpG
  refine ⟨hret,
    handledInTime f.lag
      (cli.Install f.world (withProfile f.Profiles h.Installation.Profile p) h.Installation).2.1,
    pre, post, late, ?_, htail, ?_, hlast⟩
  · rw [htrace]
    simp [afterInstall, List.append_assoc]
  · have hGlate : (afterInstall cli
        { f with Profiles := withProfile f.Profiles h.Installation.Profile p }
        h mod startMsg).late =
        leftLate f.lag mod (cli.Install f.world
          (withProfile f.Profiles h.Installation.Profile p) h.Installation).2.1 := rfl
    rw [hGlate] at hlate
    by_cases hk : f.lag = 0
    · left
      refine ⟨by simp [handledInTime, hk], ?_⟩
      rcases hlate with hl | ⟨item, data, hl, _, _⟩
      · exact hl
      · simp [leftLate, hk] at hl
    · right
      refine ⟨by simp [handledInTime, hk], ?_⟩
      rcases hlate with hl | ⟨item, data, hl, hpre, hb⟩
      · exact Or.inl hl
      · right
        simp only [leftLate, hk, if_false, Option.map_eq_some'] at hl
        obtain ⟨u, hu, hpair⟩ := hl
        simp only [Prod.mk.injEq] at hpair
        obtain ⟨rfl, rfl⟩ := hpair
        exact ⟨u, hu, hpre, hb⟩

theorem syncTail_announces (cli : Cli W) {f : FicsitCLI W} {j : Nat} {h : InstallationInfo}
    (hcur : currentInstallation f = some (j, h)) (p : Profile) (mod startMsg failMsg : String) :
    AnnouncesFirst f h mod startMsg
      (syncTail cli (some j) mod startMsg failMsg
        { f with Profiles := withProfile f.Profiles h.Installation.Profile p }) := by
  obtain ⟨_, _, _, _, _, hh⟩ := currentInstallation_some hcur
  cases hres : (cli.Install f.world (withProfile f.Profiles h.Installation.Profile p)
      h.Installation).2.2 with
  | none =>
    obtain ⟨_, handled, pre, post, late, htrace, _⟩ :=
      syncTail_succeeds cli hcur p mod startMsg failMsg hres
    rw [AnnouncesFirst, htrace]
    refine ⟨(handled.map fun u => Effect.emitProgress (some (updateProgress mod u))) ++
      (pre ++ late ++ post), ?_⟩
    simp [syncEvents]
  | some e =>
    have key := syncTail_run_fail cli
      (f := { f with Profiles := withProfile f.Profiles h.Installation.Profile p })
      hh mod startMsg failMsg hres
    rw [key]
    exact ⟨_, rfl⟩

/-! ## C1: a failed sync -/

/-- C1. `InstallMod(m)` on a state with a selected installation whose profile accepts adding
`m` with constraint `>=0.0.0` (the library's `AddMod` returns no error and leaves `m` in the
mapping), when the library's `Install` then fails with `e`: the call returns `e` wrapped with
`Failed to install mod: m@latest`; the profile holds what `AddMod` left, so it still contains
`m`; the events of the call hold no `Save`, no `lockfileMods` and no `manifestMods`; and the
progress slot is not nil and holds the last value that was broadcast. -/
theorem InstallMod_sync_failure (cli : Cli W) (f : FicsitCLI W) (m : String) (j : Nat)
    (h : InstallationInfo) (p : Profile) (e : Error)
    (hcur : currentInstallation f = some (j, h))
    (hp : GetProfile f h.Installation.Profile = some p)
    (hadd : (cli.AddMod p m ">=0.0.0").2 = none)
    (hmem : m ∈ (cli.AddMod p m ">=0.0.0").1.Mods.map Prod.fst)
    (hfail : (cli.Install f.world
      (withProfile f.Profiles h.Installation.Profile (cli.AddMod p m ">=0.0.0").1)
      h.Installation).2.2 = some e) :
    (InstallMod cli m f).1 =
        Outcome.ok (some (Error.wrap e ("Failed to install mod: " ++ m ++ "@latest"))) ∧
      (∃ q, GetProfile (InstallMod cli m f).2 h.Installation.Profile = some q ∧
        q = (cli.AddMod p m ">=0.0.0").1 ∧ m ∈ q.Mods.map Prod.fst) ∧
      (∃ new, (InstallMod cli m f).2.trace = f.trace ++ new ∧
        Effect.callSave ∉ new ∧
        (∀ ev ∈ new, ev.isModsNotification = false) ∧
        (broadcasts new).getLast? = some (InstallMod cli m f).2.progress) ∧
      (InstallMod cli m f).2.progress ≠ none := by
  have hh : f.installations[j]? = some h := by
    obtain ⟨_, _, _, _, _, hh⟩ := currentInstallation_some hcur
    exact hh
  have key := syncTail_run_fail cli
    (f := { f with
      Profiles := withProfile f.Profiles h.Installation.Profile (cli.AddMod p m ">=0.0.0").1 })
    hh m "Finding the best version to install" ("Failed to install mod: " ++ m ++ "@latest")
    hfail
  rw [InstallMod_eq_syncTail cli hcur hp m hadd, key]
  refine ⟨rfl, ⟨_, withProfile_self _ _ _, rfl, hmem⟩, ⟨_, rfl, ?_, ?_, ?_⟩, ?_⟩
  · simp [syncEvents]
  · intro ev hev
    simp only [syncEvents, List.mem_cons, List.mem_map] at hev
    rcases hev with rfl | rfl | ⟨u, _, rfl⟩ <;> rfl
  · generalize handledInTime _ (cli.Install f.world _ h.Installation).2.1 = updates
    have hb : broadcasts (Effect.emitProgress
          (some { Item := m, Message := "Finding the best version to install",
                  Progress := Float64.fin (-1) }) :: syncEvents h m updates) =
        some { Item := m, Message := "Finding the best version to install",
               Progress := Float64.fin (-1) } ::
          (updates.map (updateProgress m)).map some := by
      have := broadcasts_map_emitProgress ((updates.map (updateProgress m)).map some)
      simp only [List.map_map] at this
      simp only [broadcasts, syncEvents, List.map_map]
      exact congrArg _ this
    rw [hb]
    cases hu : (updates.map (updateProgress m)).getLast? with
    | none =>
      have : updates = [] := by simpa using hu
      simp [this]
    | some x =>
      have hne : (updates.map (updateProgress m)).map some ≠ [] := by
        intro hnil
        simp at hnil
        simp [hnil] at hu
      rw [List.getLast?_cons, List.getLast?_map, hu]
      simp
  · cases (List.map (updateProgress m)
        (handledInTime _ (cli.Install f.world _ h.Installation).2.1)).getLast? <;>
      simp

/-- The hypotheses of `InstallMod_sync_failure` hold for the mod `Broken` on `demoState`. -/
theorem InstallMod_sync_failure_witness :
    currentInstallation demoState = some (0, demoHandle) ∧
      (InstallMod demoCli "Broken" demoState).1 =
        Outcome.ok (some (Error.wrap (Error.base "could not resolve")
          ("Failed to install mod: " ++ "Broken" ++ "@latest"))) ∧
      (InstallMod demoCli "Broken" demoState).2.progress ≠ none :=
  have hw := InstallMod_sync_failure demoCli demoState "Broken" 0 demoHandle
    { Name := "Default", Mods := [] } (Error.base "could not resolve")
    (by decide) (by decide) (by decide) (by decide) (by decide)
  ⟨by decide, hw.1, hw.2.2.2⟩

/-! ## C2: a rejected mutation -/

/-- C2. When the library's `AddMod` returns an error, `InstallMod(m)` and
`InstallModVersion(m, v)` return an error at once (the `AddMod` error wrapped with
`Failed to add mod`), and nothing was done: the trace is the one before the call, so there was
no progress broadcast, no `Install` call, no `Save` and no notification; the progress slot and
the library's world are unchanged. -/
theorem addMod_failure_no_side_effects (cli : Cli W) (f : FicsitCLI W) (m : String) (j : Nat)
    (h : InstallationInfo) (p : Profile)
    (hcur : currentInstallation f = some (j, h))
    (hp : GetProfile f h.Installation.Profile = some p) :
    (∀ e, (cli.AddMod p m ">=0.0.0").2 = some e →
      (InstallMod cli m f).1 =
          Outcome.ok (some (Error.wrap e ("Failed to add mod: " ++ m ++ "@latest"))) ∧
        (InstallMod cli m f).2.trace = f.trace ∧
        (InstallMod cli m f).2.progress = f.progress ∧
        (InstallMod cli m f).2.world = f.world) ∧
    (∀ v e, (cli.AddMod p m v).2 = some e →
      (InstallModVersion cli m v f).1 =
          Outcome.ok (some (Error.wrap e ("Failed to add mod: " ++ m ++ "@" ++ v))) ∧
        (InstallModVersion cli m v f).2.trace = f.trace ∧
        (InstallModVersion cli m v f).2.progress = f.progress ∧
        (InstallModVersion cli m v f).2.world = f.world) := by
  constructor
  · intro e herr
    rw [InstallMod_run_addFail cli hcur hp m herr]
    exact ⟨rfl, rfl, rfl, rfl⟩
  · intro v e herr
    rw [InstallModVersion_run_addFail cli hcur hp m v herr]
    exact ⟨rfl, rfl, rfl, rfl⟩

/-- The hypotheses of `addMod_failure_no_side_effects` hold on `demoState`, where the empty mod
reference and the empty constraint are rejected. -/
theorem addMod_failure_no_side_effects_witness :
    currentInstallation demoState = some (0, demoHandle) ∧
      (InstallMod demoCli "" demoState).1 =
        Outcome.ok (some (Error.wrap (Error.base "empty mod reference")
          ("Failed to add mod: " ++ "" ++ "@latest"))) ∧
      (InstallMod demoCli "" demoState).2.trace = [] ∧
      (InstallModVersion demoCli "" "" demoState).2.trace = [] :=
  have hw := addMod_failure_no_side_effects demoCli demoState "" 0 demoHandle
    { Name := "Default", Mods := [] } (by decide) (by decide)
  ⟨by decide, (hw.1 _ (by decide)).1, (hw.1 (Error.base "empty mod reference") (by decide)).2.1,
    (hw.2 "" (Error.base "empty mod reference") (by decide)).2.1⟩

/-! ## C3: a successful operation -/

/-- C3, as amended. For each of `InstallMod`, `InstallModVersion`, `RemoveMod`, `EnableMod`
and `DisableMod`, on a state with a selected installation whose profile exists: when the
mutation and the library's `Install` both succeed, the operation returns no error and the
calling goroutine performs after the sync, in this order and once each, `Save`, then the
`emitModsChange` step (`lockfileMods` then `manifestMods` when the lock file read succeeds,
only the log line when it fails), then the clearing progress broadcast, which is the last
event the calling goroutine emits. The listener goroutine has broadcast every update in
order during the sync, except possibly the last; when its broadcast of the last update does
not come after the clearing broadcast, that one is the last event and the progress slot is
nil. -/
theorem mod_operations_succeed (cli : Cli W) (f : FicsitCLI W) (m v : String) (j : Nat)
    (h : InstallationInfo) (p : Profile)
    (hcur : currentInstallation f = some (j, h))
    (hp : GetProfile f h.Installation.Profile = some p) :
    ((cli.AddMod p m ">=0.0.0").2 = none →
      (cli.Install f.world
        (withProfile f.Profiles h.Installation.Profile (cli.AddMod p m ">=0.0.0").1)
        h.Installation).2.2 = none →
      SucceedsWith cli f h (cli.AddMod p m ">=0.0.0").1 m "Finding the best version to install"
        (cli.Install f.world
          (withProfile f.Profiles h.Installation.Profile (cli.AddMod p m ">=0.0.0").1)
          h.Installation).2.1
        (InstallMod cli m f)) ∧
    ((cli.AddMod p m v).2 = none →
      (cli.Install f.world
        (withProfile f.Profiles h.Installation.Profile (cli.AddMod p m v).1)
        h.Installation).2.2 = none →
      SucceedsWith cli f h (cli.AddMod p m v).1 m "Finding the best version to install"
        (cli.Install f.world
          (withProfile f.Profiles h.Installation.Profile (cli.AddMod p m v).1)
          h.Installation).2.1
        (InstallModVersion cli m v f)) ∧
    ((cli.Install f.world
        (withProfile f.Profiles h.Installation.Profile (cli.RemoveMod p m))
        h.Installation).2.2 = none →
      SucceedsWith cli f h (cli.RemoveMod p m) m "Checking for mods that are no longer needed"
        (cli.Install f.world
          (withProfile f.Profiles h.Installation.Profile (cli.RemoveMod p m))
          h.Installation).2.1
        (RemoveMod cli m f)) ∧
    ((cli.Install f.world
        (withProfile f.Profiles h.Installation.Profile (cli.SetModEnabled p m true))
        h.Installation).2.2 = none →
      SucceedsWith cli f h (cli.SetModEnabled p m true) m "Finding the best version to install"
        (cli.Install f.world
          (withProfile f.Profiles h.Installation.Profile (cli.SetModEnabled p m true))
          h.Installation).2.1
        (EnableMod cli m f)) ∧
    ((cli.Install f.world
        (withProfile f.Profiles h.Installation.Profile (cli.SetModEnabled p m false))
        h.Installation).2.2 = none →
      SucceedsWith cli f h (cli.SetModEnabled p m false) m
        "Checking for mods that are no longer needed"
        (cli.Install f.world
          (withProfile f.Profiles h.Installation.Profile (cli.SetModEnabled p m false))
          h.Installation).2.1
        (DisableMod cli m f)) := by
  refine ⟨?_, ?_, ?_, ?_, ?_⟩
  · intro hadd hok
    rw [InstallMod_eq_syncTail cli hcur hp m hadd]
    exact syncTail_succeeds cli hcur _ m _ _ hok
  · intro hadd hok
    rw [InstallModVersion_eq_syncTail cli hcur hp m v hadd]
    exact syncTail_succeeds cli hcur _ m _ _ hok
  · intro hok
    rw [RemoveMod_eq_syncTail cli hcur hp m]
    exact syncTail_succeeds cli hcur _ m _ _ hok
  · intro hok
    rw [EnableMod_eq_syncTail cli hcur hp m]
    exact syncTail_succeeds cli hcur _ m _ _ hok
  · intro hok
    rw [DisableMod_eq_syncTail cli hcur hp m]
    exact syncTail_succeeds cli hcur _ m _ _ hok

/-- The hypotheses of `mod_operations_succeed` hold for the mod `X` on `lateState`, where the
listener is late, and the five operations return no error there. -/
theorem mod_operations_succeed_witness :
    currentInstallation lateState = some (0, demoHandle) ∧
      (InstallMod demoCli "X" lateState).1 = Outcome.ok none ∧
      (InstallModVersion demoCli "X" "1.0.0" lateState).1 = Outcome.ok none ∧
      (RemoveMod demoCli "X" lateState).1 = Outcome.ok none ∧
      (EnableMod demoCli "X" lateState).1 = Outcome.ok none ∧
      (DisableMod demoCli "X" lateState).1 = Outcome.ok none :=
  have hw := mod_operations_succeed demoCli lateState "X" "1.0.0" 0 demoHandle
    { Name := "Default", Mods := [] } (by decide) (by decide)
  ⟨by decide, (hw.1 (by decide) (by decide)).1, (hw.2.1 (by decide) (by decide)).1,
    (hw.2.2.1 (by decide)).1, (hw.2.2.2.1 (by decide)).1, (hw.2.2.2.2 (by decide)).1⟩

/-- C3 as stated fails. `InstallMod("X")` succeeds on `lateState`, where the listener
goroutine handles the last update only after the calling goroutine has cleared the progress:
the last event is then the broadcast `Extracting X`, not the clearing one, and the progress
slot is not nil when the operation returns. And where the lock file cannot be read after the
sync, the operation succeeds without any `lockfileMods` or `manifestMods` event. -/
theorem InstallMod_clear_not_last :
    (InstallMod demoCli "X" lateState).1 = Outcome.ok none ∧
      (InstallMod demoCli "X" lateState).2.trace =
        [Effect.emitProgress (some
           { Item := "X", Message := "Finding the best version to install",
             Progress := Float64.fin (-1) }),
         Effect.callInstall { Path := "/games/sf", Profile := "Default" },
         Effect.emitProgress (some
           { Item := "X", Message := "Downloading X", Progress := Float64.fin 0 }),
         Effect.callSave,
         Effect.emitLockfileMods [("X", ">=0.0.0")],
         Effect.emitManifestMods [("X", { Version := ">=0.0.0", Enabled := true })],
         Effect.emitProgress none,
         Effect.emitProgress (some
           { Item := "X", Message := "Extracting X", Progress := Float64.fin 1 })] ∧
      (InstallMod demoCli "X" lateState).2.progress =
        some { Item := "X", Message := "Extracting X", Progress := Float64.fin 1 } ∧
      (InstallMod unreadableCli "X" demoState).1 = Outcome.ok none ∧
      (InstallMod unreadableCli "X" demoState).2.trace =
        [Effect.emitProgress (some
           { Item := "X", Message := "Finding the best version to install",
             Progress := Float64.fin (-1) }),
         Effect.callInstall { Path := "/games/sf", Profile := "Default" },
         Effect.emitProgress (some
           { Item := "X", Message := "Downloading X", Progress := Float64.fin 0 }),
         Effect.emitProgress (some
           { Item := "X", Message := "Extracting X", Progress := Float64.fin 1 }),
         Effect.callSave,
         Effect.logError (Error.base "lock file unreadable"),
         Effect.emitProgress none] := by
  decide

/-! ## C5: the announcement -/

/-- C5, as amended. For each of the five operations, on a state with a selected installation
whose profile exists and when the mutation succeeds, the first event of the operation is a
progress broadcast with item `m` and progress `-1`, and the next event is the library's
`Install` call. The message is `Finding the best version to install` for `InstallMod`,
`InstallModVersion` and `EnableMod`, and `Checking for mods that are no longer needed` for
`RemoveMod` and `DisableMod`. -/
theorem mod_operations_announce (cli : Cli W) (f : FicsitCLI W) (m v : String) (j : Nat)
    (h : InstallationInfo) (p : Profile)
    (hcur : currentInstallation f = some (j, h))
    (hp : GetProfile f h.Installation.Profile = some p) :
    ((cli.AddMod p m ">=0.0.0").2 = none →
      AnnouncesFirst f h m "Finding the best version to install" (InstallMod cli m f)) ∧
    ((cli.AddMod p m v).2 = none →
      AnnouncesFirst f h m "Finding the best version to install"
        (InstallModVersion cli m v f)) ∧
    AnnouncesFirst f h m "Checking for mods that are no longer needed" (RemoveMod cli m f) ∧
    AnnouncesFirst f h m "Finding the best version to install" (EnableMod cli m f) ∧
    AnnouncesFirst f h m "Checking for mods that are no longer needed" (DisableMod cli m f) := by
  refine ⟨?_, ?_, ?_, ?_, ?_⟩
  · intro hadd
    rw [InstallMod_eq_syncTail cli hcur hp m hadd]
    exact syncTail_announces cli hcur _ m _ _
  · intro hadd
    rw [InstallModVersion_eq_syncTail cli hcur hp m v hadd]
    exact syncTail_announces cli hcur _ m _ _
  · rw [RemoveMod_eq_syncTail cli hcur hp m]
    exact syncTail_announces cli hcur _ m _ _
  · rw [EnableMod_eq_syncTail cli hcur hp m]
    exact syncTail_announces cli hcur _ m _ _
  · rw [DisableMod_eq_syncTail cli hcur hp m]
    exact syncTail_announces cli hcur _ m _ _

/-- The hypotheses of `mod_operations_announce` hold for the mod `X` on `demoState`. -/
theorem mod_operations_announce_witness :
    currentInstallation demoState = some (0, demoHandle) ∧
      AnnouncesFirst demoState demoHandle "X" "Finding the best version to install"
        (InstallMod demoCli "X" demoState) ∧
      AnnouncesFirst demoState demoHandle "X" "Checking for mods that are no longer needed"
        (DisableMod demoCli "X" demoState) :=
  have hw := mod_operations_announce demoCli demoState "X" "1.0.0" 0 demoHandle
    { Name := "Default", Mods := [] } (by decide) (by decide)
  ⟨by decide, hw.1 (by decide), hw.2.2.2.2⟩

/-- C5 as stated fails: the first progress broadcast of `RemoveMod("X")` carries the message
`Checking for mods that are no longer needed`, not `Finding the best version to install`. -/
theorem RemoveMod_first_broadcast :
    (broadcasts (RemoveMod demoCli "X" demoState).2.trace).head? =
        some (some { Item := "X", Message := "Checking for mods that are no longer needed",
                     Progress := Float64.fin (-1) }) ∧
      (broadcasts (RemoveMod demoCli "X" demoState).2.trace).head? ≠
        some (some { Item := "X", Message := "Finding the best version to install",
                     Progress := Float64.fin (-1) }) := by
  decide

/-! ## C4: the listener -/

theorem updateProgress_spec (progressItem : String) (u : InstallUpdate) :
    (updateProgress progressItem u).Item = progressItem ∧
      (updateProgress progressItem u).Progress = u.DownloadProgress ∧
      (u.DownloadProgress.lt (Float64.fin 1) = true →
        (updateProgress progressItem u).Message = "Downloading " ++ u.ModName) ∧
      (u.DownloadProgress.ge (Float64.fin 1) = true →
        (updateProgress progressItem u).Message = "Extracting " ++ u.ModName) := by
  refine ⟨rfl, rfl, ?_, ?_⟩
  · intro hlt
    simp [updateProgress, hlt]
  · intro hge
    have hnlt : u.DownloadProgress.lt (Float64.fin 1) = false := by
      cases hd : u.DownloadProgress with
      | nan => rfl
      | negInf => rw [hd] at hge; simp [Float64.ge] at hge
      | posInf => rfl
      | fin q =>
        rw [hd] at hge
        simp only [Float64.ge, decide_eq_true_eq] at hge
        simp only [Float64.lt, decide_eq_false_iff_not, not_lt]
        exact hge
    simp [updateProgress, hnlt]

/-- C4. For every progress item `p`, every list of install updates and every state, the
listener of `validateInstall` ends without panic and adds to the trace exactly one progress
broadcast per update, in the order of the updates; the broadcast for an update has item `p`,
the update's download fraction as progress, and the message `Downloading <ModName>` when the
fraction is `< 1` and `Extracting <ModName>` when it is `>= 1`. In particular updates with
fractions 0.2, 0.6, 1.0, 1.0 give Downloading, Downloading, Extracting, Extracting. -/
theorem listener_broadcasts (p : String) (updates : List InstallUpdate) (f : FicsitCLI W) :
    (listener p updates f).1 = Outcome.ok () ∧
      (∃ bs : List Progress,
        (listener p updates f).2.trace =
            f.trace ++ bs.map (fun b => Effect.emitProgress (some b)) ∧
          List.Forall₂
            (fun u b =>
              b.Item = p ∧ b.Progress = u.DownloadProgress ∧
                (u.DownloadProgress.lt (Float64.fin 1) = true →
                  b.Message = "Downloading " ++ u.ModName) ∧
                (u.DownloadProgress.ge (Float64.fin 1) = true →
                  b.Message = "Extracting " ++ u.ModName))
            updates bs) ∧
      ∀ n₁ n₂ n₃ n₄ : String,
        (listener p
          [{ ModName := n₁, DownloadProgress := Float64.fin (1 / 5) },
           { ModName := n₂, DownloadProgress := Float64.fin (3 / 5) },
           { ModName := n₃, DownloadProgress := Float64.fin 1 },
           { ModName := n₄, DownloadProgress := Float64.fin 1 }] f).2.trace =
        f.trace ++
          [Effect.emitProgress (some
            { Item := p, Message := "Downloading " ++ n₁, Progress := Float64.fin (1 / 5) }),
           Effect.emitProgress (some
            { Item := p, Message := "Downloading " ++ n₂, Progress := Float64.fin (3 / 5) }),
           Effect.emitProgress (some
            { Item := p, Message := "Extracting " ++ n₃, Progress := Float64.fin 1 }),
           Effect.emitProgress (some
            { Item := p, Message := "Extracting " ++ n₄, Progress := Float64.fin 1 })] := by
  refine ⟨by rw [listener_run], ⟨updates.map (updateProgress p), ?_, ?_⟩, ?_⟩
  · rw [listener_run]
    simp [List.map_map, Function.comp_def]
  · rw [List.forall₂_map_right_iff]
    exact List.forall₂_same.mpr (fun u _ => updateProgress_spec p u)
  · intro n₁ n₂ n₃ n₄
    rw [listener_run]
    have h15 : ((1 : ℚ) / 5 < 1) := by norm_num
    have h35 : ((3 : ℚ) / 5 < 1) := by norm_num
    have h15' : ((5 : ℚ)⁻¹ < 1) := by norm_num
    simp [updateProgress, Float64.lt, h15, h35, h15']

/-! ## C6: the registry after start-up -/

theorem strLess_iff (a b : String) : strLess a b = true ↔ a < b := by
  simp [strLess, String.lt_iff_toList_lt]

theorem lessInstallation_iff (a b : InstallationInfo) :
    lessInstallation a b = true ↔
      a.Info.Launcher < b.Info.Launcher ∨
        (a.Info.Launcher = b.Info.Launcher ∧ a.Info.Branch < b.Info.Branch) := by
  unfold lessInstallation
  by_cases hl : a.Info.Launcher = b.Info.Launcher
  · simp [hl, strLess_iff]
  · simp [hl, strLess_iff]

theorem lessInstallation_false_iff (a b : InstallationInfo) :
    lessInstallation b a = false ↔ KeyLe a b := by
  rw [← Bool.not_eq_true, lessInstallation_iff, KeyLe]
  constructor
  · intro hn
    rcases lt_trichotomy a.Info.Launcher b.Info.Launcher with hlt | heq | hgt
    · exact Or.inl hlt
    · right
      refine ⟨heq, ?_⟩
      rcases lt_trichotomy a.Info.Branch b.Info.Branch with h1 | h1 | h1
      · exact Or.inl h1
      · exact Or.inr h1
      · exact absurd (Or.inr ⟨heq.symm, h1⟩) hn
    · exact absurd (Or.inl hgt) hn
  · rintro (hlt | ⟨heq, hb⟩) hn
    · rcases hn with h1 | ⟨h1, _⟩
      · exact lt_asymm hlt h1
      · rw [h1] at hlt
        exact lt_irrefl _ hlt
    · rcases hn with h1 | ⟨_, h2⟩
      · rw [heq] at h1
        exact lt_irrefl _ h1
      · rcases hb with hb | hb
        · exact lt_asymm hb h2
        · rw [hb] at h2
          exact lt_irrefl _ h2

theorem KeyLe_trans {a b c : InstallationInfo} (hab : KeyLe a b) (hbc : KeyLe b c) :
    KeyLe a c := by
  unfold KeyLe at *
  rcases hab with h1 | ⟨h1, h2⟩
  · rcases hbc with h3 | ⟨h3, _⟩
    · exact Or.inl (lt_trans h1 h3)
    · exact Or.inl (h3 ▸ h1)
  · rcases hbc with h3 | ⟨h3, h4⟩
    · exact Or.inl (h1 ▸ h3)
    · right
      refine ⟨h1.trans h3, ?_⟩
      rcases h2 with h2 | h2
      · rcases h4 with h4 | h4
        · exact Or.inl (lt_trans h2 h4)
        · exact Or.inl (h4 ▸ h2)
      · rcases h4 with h4 | h4
        · exact Or.inl (h2 ▸ h4)
        · exact Or.inr (h2.trans h4)

theorem lessInstallation_strictWeak : StrictWeak lessInstallation := by
  refine ⟨?_, ?_, ?_⟩
  · intro a
    rw [lessInstallation_false_iff]
    exact Or.inr ⟨rfl, Or.inr rfl⟩
  · intro a b c hab hbc
    rw [lessInstallation_iff] at *
    rcases hab with h1 | ⟨h1, h2⟩
    · rcases hbc with h3 | ⟨h3, _⟩
      · exact Or.inl (lt_trans h1 h3)
      · exact Or.inl (h3 ▸ h1)
    · rcases hbc with h3 | ⟨h3, h4⟩
      · exact Or.inl (h1 ▸ h3)
      · exact Or.inr ⟨h1.trans h3, lt_trans h2 h4⟩
  · intro a b c hab hbc
    rw [lessInstallation_false_iff] at *
    exact KeyLe_trans hbc hab

theorem chain_to_pairwise_KeyLe {l : List InstallationInfo}
    (hc : l.Chain' (fun a b => lessInstallation b a = false)) : l.Pairwise KeyLe := by
  have hc' : l.Chain' KeyLe := by
    refine List.Chain'.imp ?_ hc
    intro a b hab
    exact (lessInstallation_false_iff a b).mp hab
  haveI : IsTrans InstallationInfo KeyLe := ⟨fun _ _ _ => KeyLe_trans⟩
  exact List.chain'_iff_pairwise.mp hc'


theorem insertionSortSlice_contract : SortSliceContract insertionSortSlice := by
  intro less hless l
  obtain ⟨hirr, htr, hneg⟩ := hless
  haveI : IsTotal InstallationInfo (fun a b => less b a = false) := by
    refine ⟨fun a b => ?_⟩
    cases hba : less b a with
    | false => exact Or.inl rfl
    | true =>
      right
      cases hab : less a b with
      | false => rfl
      | true =>
        have := htr a b a hab hba
        rw [hirr a] at this
        exact absurd this (by decide)
  haveI : IsTrans InstallationInfo (fun a b => less b a = false) :=
    ⟨fun a b c hab hbc => hneg c b a hbc hab⟩
  exact ⟨List.perm_insertionSort _ l, (List.sorted_insertionSort _ l).chain'⟩

theorem initInstallations_run (cli : Cli W)
    (sortSlice : (InstallationInfo → InstallationInfo → Bool) →
      List InstallationInfo → List InstallationInfo)
    (installs : List FinderInstallation) (f : FicsitCLI W)
    (hreg : (registerAll cli installs (beforeRegistration cli f)).1 = Outcome.ok ()) :
    (initInstallations cli sortSlice installs [] f).2.installations =
        sortSlice lessInstallation (registered cli installs f) ∧
      (sortSlice lessInstallation (registered cli installs f) ≠ [] →
        (initInstallations cli sortSlice installs [] f).1 = Outcome.ok () ∧
          (initInstallations cli sortSlice installs [] f).2.selectedInstallation = some 0) := by
  unfold registered
  simp only [initInstallations, bind_run, pure_run, Op.modify, Op.get]
  have hstart : ({ f with installations := [], world := cli.ClearInstallations f.world } :
      FicsitCLI W) = beforeRegistration cli f := rfl
  rw [hstart]
  rcases hr : registerAll cli installs (beforeRegistration cli f) with ⟨o, g⟩
  rw [hr] at hreg
  simp only at hreg
  subst hreg
  simp only
  cases hs : sortSlice lessInstallation g.installations with
  | nil => simp [Op.panic]
  | cons x rest => simp [Op.modify]

theorem not_KeyLe_of_less {a b : InstallationInfo} (h : lessInstallation b a = true) :
    ¬ KeyLe a b := by
  rw [← lessInstallation_false_iff, h]
  decide

theorem sorted_example {a b c : InstallationInfo} {out : List InstallationInfo}
    (ha : a.Info.Launcher = "Epic" ∧ a.Info.Branch = "experimental")
    (hb : b.Info.Launcher = "Steam" ∧ b.Info.Branch = "main")
    (hc : c.Info.Launcher = "Epic" ∧ c.Info.Branch = "main")
    (hperm : out.Perm [a, b, c]) (hsorted : out.Pairwise KeyLe) : out = [a, c, b] := by
  have hbc : ¬ KeyLe b c := by
    apply not_KeyLe_of_less
    simp only [lessInstallation, ha.1, ha.2, hb.1, hb.2, hc.1, hc.2]
    decide
  have hba : ¬ KeyLe b a := by
    apply not_KeyLe_of_less
    simp only [lessInstallation, ha.1, ha.2, hb.1, hb.2, hc.1, hc.2]
    decide
  have hca : ¬ KeyLe c a := by
    apply not_KeyLe_of_less
    simp only [lessInstallation, ha.1, ha.2, hb.1, hb.2, hc.1, hc.2]
    decide
  have hmem := List.mem_permutations.mpr hperm
  simp only [List.permutations, List.permutationsAux_cons, List.permutationsAux2,
    List.permutationsAux_nil, List.foldr, List.mem_cons, List.append_nil, id, List.nil_append,
    List.cons_append, List.mem_singleton, List.mem_nil_iff, or_false] at hmem
  rcases hmem with h | h | h | h | h | h <;> subst h <;>
    first
    | rfl
    | (simp [hbc, hba, hca] at hsorted)

/-- C6, as amended. When discovery reported no error and the library accepted every
installation, so that `initInstallations` gets through its registration loop, and with
`sort.Slice` meeting its documented contract: the registry that `initInstallations` leaves is
a permutation of the registered installations and is non-decreasing in the lexicographic
string order on `(Launcher, Branch)`; when at least one installation was registered the call
ends without panic and the selected installation is the element at index 0; and registered
installations `{Epic,experimental}`, `{Steam,main}`, `{Epic,main}` end in the order
`{Epic,experimental}`, `{Epic,main}`, `{Steam,main}`. -/
theorem initInstallations_sorted (cli : Cli W)
    (sortSlice : (InstallationInfo → InstallationInfo → Bool) →
      List InstallationInfo → List InstallationInfo)
    (hsort : SortSliceContract sortSlice)
    (installs : List FinderInstallation) (f : FicsitCLI W)
    (hreg : (registerAll cli installs (beforeRegistration cli f)).1 = Outcome.ok ()) :
    (initInstallations cli sortSlice installs [] f).2.installations.Perm
        (registered cli installs f) ∧
      (initInstallations cli sortSlice installs [] f).2.installations.Pairwise KeyLe ∧
      (registered cli installs f ≠ [] →
        (initInstallations cli sortSlice installs [] f).1 = Outcome.ok () ∧
          (initInstallations cli sortSlice installs [] f).2.selectedInstallation = some 0 ∧
          0 < (initInstallations cli sortSlice installs [] f).2.installations.length) ∧
      (∀ a b c : InstallationInfo,
        a.Info.Launcher = "Epic" ∧ a.Info.Branch = "experimental" →
        b.Info.Launcher = "Steam" ∧ b.Info.Branch = "main" →
        c.Info.Launcher = "Epic" ∧ c.Info.Branch = "main" →
        registered cli installs f = [a, b, c] →
        (initInstallations cli sortSlice installs [] f).2.installations = [a, c, b]) := by
  obtain ⟨hinst, hsel⟩ := initInstallations_run cli sortSlice installs f hreg
  obtain ⟨hperm, hchain⟩ :=
    hsort lessInstallation lessInstallation_strictWeak (registered cli installs f)
  rw [hinst]
  refine ⟨hperm, chain_to_pairwise_KeyLe hchain, ?_, ?_⟩
  · intro hne
    have hne' : sortSlice lessInstallation (registered cli installs f) ≠ [] := by
      intro hnil
      rw [hnil] at hperm
      exact hne hperm.symm.eq_nil
    exact ⟨(hsel hne').1, (hsel hne').2, List.length_pos.mpr hne'⟩
  · intro a b c ha hb hc hreg3
    rw [hreg3] at hperm hchain ⊢
    exact sorted_example ha hb hc hperm (chain_to_pairwise_KeyLe hchain)

/-- Insertion sort, which is what `sort.Slice` runs on up to twelve elements, meets the
contract; start-up on the three example installations, all of which the library accepts. -/
theorem initInstallations_sorted_witness :
    SortSliceContract insertionSortSlice ∧
      (registerAll demoCli exampleInstalls (beforeRegistration demoCli emptyState)).1 =
        Outcome.ok () ∧
      ((initInstallations demoCli insertionSortSlice exampleInstalls [] emptyState).2.installations.map
        (fun h => h.Info.Path)) = ["/epic/exp", "/epic/main", "/steam/main"] ∧
      (initInstallations demoCli insertionSortSlice exampleInstalls []
        emptyState).2.installations.Pairwise KeyLe ∧
      (initInstallations demoCli insertionSortSlice exampleInstalls []
        emptyState).2.selectedInstallation = some 0 :=
  have hw := initInstallations_sorted demoCli insertionSortSlice insertionSortSlice_contract
    exampleInstalls emptyState (by decide)
  ⟨insertionSortSlice_contract, by decide, by decide, hw.2.1, (hw.2.2.1 (by decide)).2.1⟩

/-- C6 as stated fails. Twelve Steam/main installations followed by one Epic/main
installation are all registered; Go's `sort.Slice` (more than twelve elements, so the
pivot at index 6 is swapped to the front and partitioned around) puts the Epic installation
first and leaves the Steam installations in the order 06, 02, 03, 04, 05, 00, 07, ..., 11, 01:
installations with equal `(Launcher, Branch)` do not keep their discovery order. -/
theorem initInstallations_not_stable :
    (registered demoCli thirteenInstalls emptyState).map (fun h => h.Info.Path) =
        ["/steam/00", "/steam/01", "/steam/02", "/steam/03", "/steam/04", "/steam/05",
         "/steam/06", "/steam/07", "/steam/08", "/steam/09", "/steam/10", "/steam/11",
         "/epic/main"] ∧
      (sortSliceRun lessInstallation (registered demoCli thirteenInstalls emptyState)).isSome =
        true ∧
      (initInstallations demoCli goSortSlice thirteenInstalls [] emptyState).1 = Outcome.ok () ∧
      (initInstallations demoCli goSortSlice thirteenInstalls [] emptyState).2.installations.map
          (fun h => h.Info.Path) =
        ["/epic/main", "/steam/06", "/steam/02", "/steam/03", "/steam/04", "/steam/05",
         "/steam/00", "/steam/07", "/steam/08", "/steam/09", "/steam/10", "/steam/11",
         "/steam/01"] ∧
      ¬ KeepsOrderOfEqualKeys (registered demoCli thirteenInstalls emptyState)
        (initInstallations demoCli goSortSlice thirteenInstalls [] emptyState).2.installations := by
  refine ⟨by decide, by decide, by decide, by decide, ?_⟩
  intro hkeep
  have h1 := hkeep
    { Installation := { Path := "/steam/00", Profile := "Default" }
      Info := { Path := "/steam/00", Launcher := "Steam", Branch := "main" } }
  revert h1
  decide

/-! ## C7: selecting an installation -/

theorem GetInstallation_some {f : FicsitCLI W} {path : String} {i : Nat}
    (h : GetInstallation f path = some i) :
    ∃ s, f.installations[i]? = some s ∧ s.Info.Path = path := by
  unfold GetInstallation at h
  simp only at h
  split at h
  · rename_i hlt
    simp only [Option.some.injEq] at h
    subst h
    refine ⟨f.installations.get ⟨_, hlt⟩, ?_, ?_⟩
    · simp [List.getElem?_eq_getElem hlt]
    · have := List.findIdx_getElem (w := hlt)
      simpa using this
  · simp at h

theorem GetInstallation_none {f : FicsitCLI W} {path : String}
    (h : GetInstallation f path = none) : ∀ s ∈ f.installations, s.Info.Path ≠ path := by
  unfold GetInstallation at h
  simp only at h
  split at h
  · simp at h
  · rename_i hnlt
    intro s hs heq
    apply hnlt
    apply List.findIdx_lt_length_of_exists
    exact ⟨s, hs, by simp [heq]⟩

/-- C7 at the failing input. After start-up on the three example installations, calling
`SelectInstall` with a path that no registered installation has makes `GetInstallation`
return nil, which is stored as the selected installation; `emitModsChange` then panics on
the nil dereference and no installation is selected any more. -/
theorem SelectInstall_unknown_path :
    startedState.selectedInstallation = some 0 ∧
      GetInstallation startedState "/no/such/path" = none ∧
      (SelectInstall demoCli "/no/such/path" startedState).2.selectedInstallation = none ∧
      (SelectInstall demoCli "/no/such/path" startedState).1 =
        Outcome.panic "invalid memory address or nil pointer dereference" := by
  decide

/-! ## C8: selection and profile reassignment notify -/

theorem findIdx_set_same {α : Type} (p : α → Bool) (l : List α) (j : Nat) (a x : α)
    (hj : l[j]? = some a) (hp : p x = p a) : (l.set j x).findIdx p = l.findIdx p := by
  induction l generalizing j with
  | nil => simp
  | cons b rest ih =>
    cases j with
    | zero =>
      simp only [List.getElem?_cons_zero, Option.some.injEq] at hj
      subst hj
      simp [List.findIdx_cons, hp]
    | succ k =>
      simp only [List.getElem?_cons_succ] at hj
      simp [List.findIdx_cons, ih k hj]

theorem currentInstallation_select {f : FicsitCLI W} {path : String} {i : Nat}
    {s : InstallationInfo} (hget : GetInstallation f path = some i)
    (hs : f.installations[i]? = some s) :
    currentInstallation { f with selectedInstallation := some i } = some (i, s) := by
  obtain ⟨s', hs', hpath⟩ := GetInstallation_some hget
  rw [hs] at hs'
  simp only [Option.some.injEq] at hs'
  subst hs'
  have hget' : GetInstallation { f with selectedInstallation := some i } s.Info.Path =
      some i := by
    rw [hpath]
    exact hget
  simp [currentInstallation, hs, hget']

theorem currentInstallation_setHandle {f : FicsitCLI W} {j : Nat} {h : InstallationInfo}
    (hcur : currentInstallation f = some (j, h)) (w : W) (inst : Installation) :
    currentInstallation
        { f with
          world := w
          installations := f.installations.set j { h with Installation := inst } } =
      some (j, { h with Installation := inst }) := by
  obtain ⟨i, sel, hsel, hi, hj, hh⟩ := currentInstallation_some hcur
  have hjlt : j < f.installations.length := by
    rcases Nat.lt_or_ge j f.installations.length with hlt | hge
    · exact hlt
    · rw [List.getElem?_eq_none hge] at hh
      exact absurd hh (by simp)
  have hget : ∀ (path : String) (sl : Option Nat), GetInstallation
      { f with
        world := w
        selectedInstallation := sl
        installations := f.installations.set j { h with Installation := inst } } path =
      GetInstallation f path := by
    intro path sl
    simp only [GetInstallation, List.length_set]
    rw [findIdx_set_same (fun install => install.Info.Path == path) f.installations j h
      { Installation := inst, Info := h.Info } hh rfl]
  have hnew : (f.installations.set j { h with Installation := inst })[j]? =
      some { h with Installation := inst } := by
    simp [List.getElem?_set, hjlt]
  unfold currentInstallation
  simp only [hsel, hget, Option.bind_eq_bind, Option.some_bind]
  by_cases hij : i = j
  · subst hij
    rw [hi] at hh
    simp only [Option.some.injEq] at hh
    subst hh
    simp [hnew, hj]
  · have hi' : (f.installations.set j { h with Installation := inst })[i]? = some sel := by
      rw [List.getElem?_set_ne (Ne.symm hij)]
      exact hi
    simp [hi', hj, hnew]

theorem SelectInstall_run (cli : Cli W) {f : FicsitCLI W} {path : String} {i : Nat}
    {s : InstallationInfo} (hget : GetInstallation f path = some i)
    (hs : f.installations[i]? = some s) :
    SelectInstall cli path f =
      ((match cli.LockFile f.world f.Profiles s.Installation, f.Profiles s.Installation.Profile with
        | Except.ok _, none => Outcome.panic "invalid memory address or nil pointer dereference"
        | _, _ => Outcome.ok ()),
        { f with
          selectedInstallation := some i
          trace := f.trace ++ modsChangeEvents cli f.world f.Profiles s }) := by
  simp only [SelectInstall, bind_run, Op.modify, hget]
  rw [emitModsChange_run cli _ (currentInstallation_select hget hs)]

theorem SetProfile_run (cli : Cli W) {f : FicsitCLI W} {j : Nat} {h : InstallationInfo}
    (hcur : currentInstallation f = some (j, h)) (profile : String) :
    SetProfile cli profile f =
      ((match cli.LockFile (cli.SetProfile f.world f.Profiles h.Installation profile).1 f.Profiles
          (cli.SetProfile f.world f.Profiles h.Installation profile).2,
          f.Profiles (cli.SetProfile f.world f.Profiles h.Installation profile).2.Profile with
        | Except.ok _, none => Outcome.panic "invalid memory address or nil pointer dereference"
        | _, _ => Outcome.ok ()),
        { f with
          world := (cli.SetProfile f.world f.Profiles h.Installation profile).1
          installations := f.installations.set j
            { h with Installation := (cli.SetProfile f.world f.Profiles h.Installation profile).2 }
          trace := f.trace ++
            modsChangeEvents cli (cli.SetProfile f.world f.Profiles h.Installation profile).1
              f.Profiles
              { h with
                Installation := (cli.SetProfile f.world f.Profiles h.Installation profile).2 } }) := by
  obtain ⟨i, sel, hsel, hi, hj, hh⟩ := currentInstallation_some hcur
  simp only [SetProfile, selectedPath, bind_run, pure_run, Op.get, Op.deref, hsel, hi, hj, hh,
    Op.modify]
  rw [← hsel, emitModsChange_run cli _ (currentInstallation_setHandle hcur _ _)]

/-- C8. On a state with a selected installation: `SelectInstall(path)` with the path of a
registered installation selects it, and `SetProfile(name)` passes the selected handle to the
library; after either, when the lock file read of the selected handle succeeds and its profile
exists, exactly `lockfileMods` (with that lock file) and then `manifestMods` (with the mods of
the handle's profile) are emitted; when the read fails, the call ends without panic and emits
neither, only the log line. -/
theorem selection_notifies (cli : Cli W) (f : FicsitCLI W) (j : Nat) (h : InstallationInfo)
    (hcur : currentInstallation f = some (j, h)) :
    (∀ path i s, GetInstallation f path = some i → f.installations[i]? = some s →
      (SelectInstall cli path f).2.selectedInstallation = some i ∧
      (∀ l p, cli.LockFile f.world f.Profiles s.Installation = Except.ok l →
        f.Profiles s.Installation.Profile = some p →
        (SelectInstall cli path f).1 = Outcome.ok () ∧
          (SelectInstall cli path f).2.trace =
            f.trace ++ [Effect.emitLockfileMods l, Effect.emitManifestMods p.Mods]) ∧
      (∀ err, cli.LockFile f.world f.Profiles s.Installation = Except.error err →
        (SelectInstall cli path f).1 = Outcome.ok () ∧
          (SelectInstall cli path f).2.trace = f.trace ++ [Effect.logError err])) ∧
    (∀ name,
      (∀ l p,
        cli.LockFile (cli.SetProfile f.world f.Profiles h.Installation name).1 f.Profiles
          (cli.SetProfile f.world f.Profiles h.Installation name).2 = Except.ok l →
        f.Profiles (cli.SetProfile f.world f.Profiles h.Installation name).2.Profile = some p →
        (SetProfile cli name f).1 = Outcome.ok () ∧
          (SetProfile cli name f).2.trace =
            f.trace ++ [Effect.emitLockfileMods l, Effect.emitManifestMods p.Mods]) ∧
      (∀ err,
        cli.LockFile (cli.SetProfile f.world f.Profiles h.Installation name).1 f.Profiles
          (cli.SetProfile f.world f.Profiles h.Installation name).2 = Except.error err →
        (SetProfile cli name f).1 = Outcome.ok () ∧
          (SetProfile cli name f).2.trace = f.trace ++ [Effect.logError err])) := by
  constructor
  · intro path i s hget hs
    rw [SelectInstall_run cli hget hs]
    refine ⟨rfl, ?_, ?_⟩
    · intro l p hl hp
      simp [hl, hp, modsChangeEvents]
    · intro err hl
      simp [hl, modsChangeEvents]
  · intro name
    rw [SetProfile_run cli hcur name]
    constructor
    · intro l p hl hp
      simp [hl, hp, modsChangeEvents]
    · intro err hl
      simp [hl, modsChangeEvents]

/-- The hypotheses of `selection_notifies` hold on `syncedState`: selecting its installation
notifies, and moving it to a profile that does not exist makes the lock file read fail. -/
theorem selection_notifies_witness :
    currentInstallation syncedState = some (0, syncedHandle) ∧
      (SelectInstall demoCli "/games/sf" syncedState).2.trace =
        syncedState.trace ++
          [Effect.emitLockfileMods [("X", "1.0.0")],
           Effect.emitManifestMods [("X", { Version := "1.0.0", Enabled := true })]] ∧
      (SetProfile demoCli "Missing" syncedState).2.trace =
        syncedState.trace ++ [Effect.logError (Error.base "profile not found")] :=
  have hw := selection_notifies demoCli syncedState 0 syncedHandle (by decide)
  ⟨by decide,
    ((hw.1 "/games/sf" 0 syncedHandle (by decide) (by decide)).2.1 [("X", "1.0.0")]
      { Name := "Modded", Mods := [("X", { Version := "1.0.0", Enabled := true })] }
      rfl (by decide)).2,
    ((hw.2 "Missing").2 (Error.base "profile not found") rfl).2⟩

/-! ## C9: deleting a profile -/

theorem DeleteProfile_run_ok (cli : Cli W) (f : FicsitCLI W) (name : String)
    (hok : (cli.DeleteProfile f.Profiles name).2 = none) :
    DeleteProfile cli name f =
      (Outcome.ok none,
        { f with
          Profiles := (cli.DeleteProfile f.Profiles name).1
          world := cli.Save f.world (cli.DeleteProfile f.Profiles name).1
          trace := f.trace ++ [Effect.callSave]
          installations := f.installations.map (fun install =>
            if install.Installation.Profile == name then
              { install with
                Installation := { install.Installation with Profile := cli.DefaultProfileName } }
            else install) }) := by
  simp [DeleteProfile, bind_run, pure_run, Op.get, Op.modify, hok, Save_run]

theorem DeleteProfile_run_fail (cli : Cli W) (f : FicsitCLI W) (name : String) {e : Error}
    (herr : (cli.DeleteProfile f.Profiles name).2 = some e) :
    DeleteProfile cli name f =
      (Outcome.ok (some (Error.wrap e ("Failed to delete profile: " ++ name))),
        { f with Profiles := (cli.DeleteProfile f.Profiles name).1 }) := by
  simp [DeleteProfile, bind_run, pure_run, Op.get, Op.modify, herr, Wrapf]

/-- C9. When the library's `DeleteProfile(P)` succeeds, `DeleteProfile(P)` returns no error,
calls `Save`, and leaves the registry with the same handles in the same places, where every
handle whose profile was `P` now has the default profile name (nothing else of it changed) and
every handle whose profile was not `P` is unchanged. When the library's `DeleteProfile(P)`
fails with `e`, the call returns `e` wrapped with `Failed to delete profile: P`, the registry
is unchanged and nothing was added to the trace, so `Save` was not called. -/
theorem DeleteProfile_fallback (cli : Cli W) (f : FicsitCLI W) (P : String) :
    ((cli.DeleteProfile f.Profiles P).2 = none →
      (DeleteProfile cli P f).1 = Outcome.ok none ∧
        (DeleteProfile cli P f).2.trace = f.trace ++ [Effect.callSave] ∧
        (DeleteProfile cli P f).2.installations.length = f.installations.length ∧
        ∀ (i : Nat) (h : InstallationInfo), f.installations[i]? = some h →
          ∃ h', (DeleteProfile cli P f).2.installations[i]? = some h' ∧
            (h.Installation.Profile = P →
              h' = { h with
                Installation := { h.Installation with Profile := cli.DefaultProfileName } }) ∧
            (h.Installation.Profile ≠ P → h' = h)) ∧
    (∀ e, (cli.DeleteProfile f.Profiles P).2 = some e →
      (DeleteProfile cli P f).1 =
          Outcome.ok (some (Error.wrap e ("Failed to delete profile: " ++ P))) ∧
        (DeleteProfile cli P f).2.installations = f.installations ∧
        (DeleteProfile cli P f).2.trace = f.trace ∧
        (DeleteProfile cli P f).2.world = f.world) := by
  constructor
  · intro hok
    rw [DeleteProfile_run_ok cli f P hok]
    refine ⟨rfl, rfl, by simp, ?_⟩
    intro i h hi
    by_cases hP : h.Installation.Profile = P
    · exact ⟨_, by simp [List.getElem?_map, hi, hP], fun _ => rfl, fun hne => absurd hP hne⟩
    · exact ⟨h, by simp [List.getElem?_map, hi, hP], fun heq => absurd heq hP, fun _ => rfl⟩
  · intro e herr
    rw [DeleteProfile_run_fail cli f P herr]
    exact ⟨rfl, rfl, rfl, rfl⟩

/-- Deleting `Modded` on `syncedState` moves its handle to `Default`; deleting `Default` is
refused. -/
theorem DeleteProfile_fallback_witness :
    (DeleteProfile demoCli "Modded" syncedState).1 = Outcome.ok none ∧
      (DeleteProfile demoCli "Modded" syncedState).2.installations.map
        (fun h => h.Installation.Profile) = ["Default"] ∧
      (DeleteProfile demoCli "Default" syncedState).2.trace = syncedState.trace :=
  have hw := DeleteProfile_fallback demoCli syncedState
  ⟨((hw "Modded").1 (by decide)).1, by decide,
    ((hw "Default").2 (Error.base "cannot delete the default profile") (by decide)).2.2.1⟩

/-! ## C10: favourites -/

theorem findFavourite_absent (x : String) (l : List String) (i : Nat) (h : x ∉ l) :
    findFavourite x l i = -1 := by
  induction l generalizing i with
  | nil => rfl
  | cons a rest ih =>
    simp only [List.mem_cons, not_or] at h
    have hne : ¬ a = x := fun heq => h.1 heq.symm
    simp [findFavourite, hne, ih (i + 1) h.2]

theorem findFavourite_first (x : String) (l r : List String) (i : Nat) (h : x ∉ l) :
    findFavourite x (l ++ x :: r) i = ((i + l.length : Nat) : Int) := by
  induction l generalizing i with
  | nil => simp [findFavourite]
  | cons a rest ih =>
    simp only [List.mem_cons, not_or] at h
    have hne : ¬ a = x := fun heq => h.1 heq.symm
    have hstep : findFavourite x (a :: (rest ++ x :: r)) i =
        findFavourite x (rest ++ x :: r) (i + 1) := by
      simp [findFavourite, hne]
    rw [List.cons_append, hstep, ih (i + 1) h.2, List.length_cons]
    congr 1
    omega

theorem FavouriteMod_run_absent (x : String) (s : Settings) (h : x ∉ s.Data.FavouriteMods) :
    FavouriteMod x s =
      (Outcome.ok true,
        { Data := { s.Data with FavouriteMods := s.Data.FavouriteMods ++ [x] }
          trace := s.trace ++
            [SettingsEffect.save { s.Data with FavouriteMods := s.Data.FavouriteMods ++ [x] },
             SettingsEffect.emitFavouriteMods (s.Data.FavouriteMods ++ [x])] }) := by
  simp [FavouriteMod, bind_run, pure_run, Op.get, Op.modify, Settings.save,
    Settings.emitFavouriteMods, findFavourite_absent x _ 0 h]

theorem FavouriteMod_run_present (x : String) (s : Settings) (l r : List String)
    (hl : x ∉ l) (hs : s.Data.FavouriteMods = l ++ x :: r) :
    FavouriteMod x s = (Outcome.ok false, s) := by
  have hidx : findFavourite x s.Data.FavouriteMods 0 ≠ -1 := by
    rw [hs, findFavourite_first x l r 0 hl]
    omega
  simp [FavouriteMod, bind_run, pure_run, Op.get, hidx]

theorem UnFavouriteMod_run_absent (x : String) (s : Settings) (h : x ∉ s.Data.FavouriteMods) :
    UnFavouriteMod x s = (Outcome.ok false, s) := by
  simp [UnFavouriteMod, bind_run, pure_run, Op.get, findFavourite_absent x _ 0 h]

theorem UnFavouriteMod_run_present (x : String) (s : Settings) (l r : List String)
    (hl : x ∉ l) (hs : s.Data.FavouriteMods = l ++ x :: r) :
    UnFavouriteMod x s =
      (Outcome.ok true,
        { Data := { s.Data with FavouriteMods := l ++ r }
          trace := s.trace ++
            [SettingsEffect.save { s.Data with FavouriteMods := l ++ r },
             SettingsEffect.emitFavouriteMods (l ++ r)] }) := by
  have hidx : findFavourite x s.Data.FavouriteMods 0 = ((l.length : Nat) : Int) := by
    rw [hs, findFavourite_first x l r 0 hl]
    simp
  have hidx' : findFavourite x (l ++ x :: r) 0 = ((l.length : Nat) : Int) := by
    rw [← hs]
    exact hidx
  have hne : ¬ ((l.length : Nat) : Int) = -1 := by omega
  have htake : List.take l.length (l ++ x :: r) ++ List.drop (l.length + 1) (l ++ x :: r) =
      l ++ r := by
    rw [List.take_left, List.drop_append 1]
    rfl
  simp [UnFavouriteMod, bind_run, pure_run, Op.get, Op.modify, Settings.save,
    Settings.emitFavouriteMods, hidx, hidx', hne, hs, htake]

/-- C10. On settings whose favourites do not contain `X`, the calls `FavouriteMod(X)`,
`FavouriteMod(X)`, `UnFavouriteMod(X)`, `UnFavouriteMod(X)`, run one after the other through
the states `s₁`, `s₂`, `s₃`, `s₄`, return true, false, true, false. The two calls that return
false leave the whole state as it was, so they neither save nor broadcast; the two that return
true add to the trace exactly one save of the new data and one `favouriteMods` broadcast of
the new list; and the favourites at the end are those at the start. -/
theorem favourite_sequence (s s₁ s₂ s₃ s₄ : Settings) (X : String)
    (hX : X ∉ s.Data.FavouriteMods)
    (h₁ : s₁ = (FavouriteMod X s).2) (h₂ : s₂ = (FavouriteMod X s₁).2)
    (h₃ : s₃ = (UnFavouriteMod X s₂).2) (h₄ : s₄ = (UnFavouriteMod X s₃).2) :
    (FavouriteMod X s).1 = Outcome.ok true ∧
      (FavouriteMod X s₁).1 = Outcome.ok false ∧
      (UnFavouriteMod X s₂).1 = Outcome.ok true ∧
      (UnFavouriteMod X s₃).1 = Outcome.ok false ∧
      s₂ = s₁ ∧ s₄ = s₃ ∧
      s₁.Data.FavouriteMods = s.Data.FavouriteMods ++ [X] ∧
      s₁.trace = s.trace ++
        [SettingsEffect.save s₁.Data, SettingsEffect.emitFavouriteMods s₁.Data.FavouriteMods] ∧
      s₃.trace = s₂.trace ++
        [SettingsEffect.save s₃.Data, SettingsEffect.emitFavouriteMods s₃.Data.FavouriteMods] ∧
      s₄.Data.FavouriteMods = s.Data.FavouriteMods := by
  rw [FavouriteMod_run_absent X s hX] at h₁
  simp only at h₁
  have hs₁ : s₁.Data.FavouriteMods = s.Data.FavouriteMods ++ X :: [] := by rw [h₁]
  rw [FavouriteMod_run_present X s₁ _ [] hX hs₁] at h₂
  simp only at h₂
  subst h₂
  rw [UnFavouriteMod_run_present X s₂ _ [] hX hs₁] at h₃
  simp only [List.append_nil] at h₃
  have hs₃ : X ∉ s₃.Data.FavouriteMods := by rw [h₃]; exact hX
  rw [UnFavouriteMod_run_absent X s₃ hs₃] at h₄
  simp only at h₄
  subst h₄
  rw [FavouriteMod_run_absent X s hX, FavouriteMod_run_present X s₂ _ [] hX hs₁,
    UnFavouriteMod_run_present X s₂ _ [] hX hs₁, UnFavouriteMod_run_absent X s₄ hs₃]
  refine ⟨rfl, rfl, rfl, rfl, rfl, rfl, hs₁, ?_, ?_, ?_⟩
  · rw [h₁]
  · rw [h₃]
  · rw [h₃]

/-- The four calls on `demoSettings` for the mod `X`. -/
theorem favourite_sequence_witness :
    "X" ∉ demoSettings.Data.FavouriteMods ∧
      (FavouriteMod "X" demoSettings).1 = Outcome.ok true ∧
      (FavouriteMod "X" (FavouriteMod "X" demoSettings).2).1 = Outcome.ok false ∧
      (UnFavouriteMod "X" (FavouriteMod "X" (FavouriteMod "X" demoSettings).2).2).2.Data.FavouriteMods =
        ["A", "B"] :=
  have hw := favourite_sequence demoSettings
    (FavouriteMod "X" demoSettings).2
    (FavouriteMod "X" (FavouriteMod "X" demoSettings).2).2
    (UnFavouriteMod "X" (FavouriteMod "X" (FavouriteMod "X" demoSettings).2).2).2
    (UnFavouriteMod "X"
      (UnFavouriteMod "X" (FavouriteMod "X" (FavouriteMod "X" demoSettings).2).2).2).2
    "X" (by decide) rfl rfl rfl rfl
  ⟨by decide, hw.1, hw.2.1, by decide⟩

/-! ## C11: the favourites as an insertion-ordered set -/

theorem FavouriteMod_list (x : String) (s : Settings) :
    (FavouriteMod x s).2.Data.FavouriteMods =
      if x ∈ s.Data.FavouriteMods then s.Data.FavouriteMods else s.Data.FavouriteMods ++ [x] := by
  by_cases hx : x ∈ s.Data.FavouriteMods
  · obtain ⟨l, r, hs, hl⟩ := List.eq_append_cons_of_mem hx
    rw [FavouriteMod_run_present x s l r hl hs, if_pos hx]
  · rw [FavouriteMod_run_absent x s hx, if_neg hx]

theorem UnFavouriteMod_list (x : String) (s : Settings) :
    (UnFavouriteMod x s).2.Data.FavouriteMods = s.Data.FavouriteMods.erase x := by
  by_cases hx : x ∈ s.Data.FavouriteMods
  · obtain ⟨l, r, hs, hl⟩ := List.eq_append_cons_of_mem hx
    rw [UnFavouriteMod_run_present x s l r hl hs, hs, List.erase_append_right _ hl]
    simp
  · rw [UnFavouriteMod_run_absent x s hx, List.erase_of_not_mem hx]

/-- C11. For settings whose favourites list `L` has no duplicates and every mod reference `X`:
`FavouriteMod(X)` leaves `L` as it is when `X` is in `L` and leaves `L` with `X` appended at
the end otherwise; `UnFavouriteMod(X)` leaves `L` without the first occurrence of `X`, which
is `L` with the entries other than `X` in their order; both results have no duplicates; and
after `UnFavouriteMod(X)` the list does not contain `X`. -/
theorem favourites_ordered_set (s : Settings) (X : String)
    (hnodup : s.Data.FavouriteMods.Nodup) :
    (X ∈ s.Data.FavouriteMods →
      (FavouriteMod X s).2.Data.FavouriteMods = s.Data.FavouriteMods) ∧
    (X ∉ s.Data.FavouriteMods →
      (FavouriteMod X s).2.Data.FavouriteMods = s.Data.FavouriteMods ++ [X]) ∧
    (UnFavouriteMod X s).2.Data.FavouriteMods = s.Data.FavouriteMods.erase X ∧
    (UnFavouriteMod X s).2.Data.FavouriteMods =
      s.Data.FavouriteMods.filter (fun m => m != X) ∧
    (FavouriteMod X s).2.Data.FavouriteMods.Nodup ∧
    (UnFavouriteMod X s).2.Data.FavouriteMods.Nodup ∧
    X ∉ (UnFavouriteMod X s).2.Data.FavouriteMods := by
  rw [FavouriteMod_list, UnFavouriteMod_list]
  refine ⟨fun hx => if_pos hx, fun hx => if_neg hx, rfl, hnodup.erase_eq_filter X, ?_,
    hnodup.erase X, ?_⟩
  · by_cases hx : X ∈ s.Data.FavouriteMods
    · rw [if_pos hx]
      exact hnodup
    · rw [if_neg hx]
      exact List.nodup_append.mpr ⟨hnodup, List.nodup_singleton X, by
        intro a ha hb
        rw [List.mem_singleton] at hb
        exact hx (hb ▸ ha)⟩
  · exact hnodup.not_mem_erase

/-- The favourites `A`, `B` of `demoSettings` have no duplicates: adding `A` changes nothing,
adding `X` appends it, removing `A` leaves `B`. -/
theorem favourites_ordered_set_witness :
    demoSettings.Data.FavouriteMods.Nodup ∧
      (FavouriteMod "A" demoSettings).2.Data.FavouriteMods = ["A", "B"] ∧
      (FavouriteMod "X" demoSettings).2.Data.FavouriteMods = ["A", "B", "X"] ∧
      (UnFavouriteMod "A" demoSettings).2.Data.FavouriteMods = ["B"] ∧
      "A" ∉ (UnFavouriteMod "A" demoSettings).2.Data.FavouriteMods :=
  have hw := favourites_ordered_set demoSettings "A" (by decide)
  ⟨by decide, hw.1 (by decide), by decide, by decide, hw.2.2.2.2.2.2⟩

end SMM
